import Mathlib

/-!
# Snake (sfml_snake.cpp): simulation core

A shallow embedding of the `Snake`, `Food` and `Game` classes of
`src/sfml_snake.cpp`, followed by the properties proved about them.

Modelling conventions.

* `int` is a 32-bit two's-complement integer.  Values are carried as `Int`
  and every `++`, `--` and `+=` of the source reduces its result with
  `wrapInt`.  A state read from memory holds values in `[INT_MIN, INT_MAX]`;
  that is the predicate `isInt`.
* `std::deque<sf::Vector2i>` is a `List Vector2i`, front of the deque first.
* `body.front()` on an empty deque has no defined result; the operations that
  call it return `none` there and `some _` everywhere else.
* Of the window only the open flag and the queue of pending events are
  kept; font, text and rendering members of `Game` carry no simulation state
  and are left out.
-/

/-! ## Constants and machine integers -/

/-- Source: `const int GRID_WIDTH = 40;` -/
def GRID_WIDTH : Int := 40

/-- Source: `const int GRID_HEIGHT = 30;` -/
def GRID_HEIGHT : Int := 30

/-- The least value of a 32-bit `int`. -/
def INT_MIN : Int := -2147483648

/-- The greatest value of a 32-bit `int`. -/
def INT_MAX : Int := 2147483647

/-- Two's-complement reduction of an integer to the 32-bit `int` range. -/
def wrapInt (z : Int) : Int := (z + 2147483648) % 4294967296 - 2147483648

/-- The integer is representable as a 32-bit `int`. -/
def isInt (z : Int) : Prop := INT_MIN ≤ z ∧ z ≤ INT_MAX

instance (z : Int) : Decidable (isInt z) := by
  unfold isInt
  exact inferInstance

/-! ## Data model -/

/-- Source: `enum class Direction`. -/
inductive Direction where
  | up
  | down
  | left
  | right
  deriving DecidableEq, Repr

/-- Source: `sf::Vector2i`, a pair of `int` coordinates. -/
structure Vector2i where
  x : Int
  y : Int
  deriving DecidableEq, Repr

/-- Source: the data members of `class Snake`. -/
structure Snake where
  body : List Vector2i
  direction : Direction
  growPending : Int
  deriving DecidableEq, Repr

/-! ## Snake operations -/

/-- Source: the constructor `Snake::Snake()`: direction left, growPending 3,
then one cell `(GRID_WIDTH / 2, GRID_HEIGHT / 2)` pushed on the empty body. -/
def Snake.ctor : Snake :=
  { body := [] ++ [{ x := GRID_WIDTH / 2, y := GRID_HEIGHT / 2 }],
    direction := Direction.left,
    growPending := 3 }

/-- Source: `Snake::set_direction`. -/
def Snake.set_direction (s : Snake) (d : Direction) : Snake :=
  if s.direction = Direction.up ∧ d = Direction.down then s
  else if s.direction = Direction.down ∧ d = Direction.up then s
  else if s.direction = Direction.left ∧ d = Direction.right then s
  else if s.direction = Direction.right ∧ d = Direction.left then s
  else { s with direction := d }

/-- Source: the `switch (direction)` of `Snake::update`, applied to a copy of
the front cell. -/
def Snake.moveHead (d : Direction) (front : Vector2i) : Vector2i :=
  match d with
  | Direction.up => { front with y := wrapInt (front.y - 1) }
  | Direction.down => { front with y := wrapInt (front.y + 1) }
  | Direction.left => { front with x := wrapInt (front.x - 1) }
  | Direction.right => { front with x := wrapInt (front.x + 1) }

/-- Source: `Snake::update`.  The result pairs the returned `bool` with the
state after the call. -/
def Snake.update (s : Snake) : Option (Bool × Snake) :=
  match s.body with
  | [] => none
  | front :: _ =>
    let newHead := Snake.moveHead s.direction front
    if newHead.x < 0 ∨ newHead.y < 0 ∨ newHead.x ≥ GRID_WIDTH ∨ newHead.y ≥ GRID_HEIGHT then
      some (false, s)
    else
      let pushed := newHead :: s.body
      if s.growPending > 0 then
        some (true, { s with body := pushed, growPending := wrapInt (s.growPending - 1) })
      else
        some (true, { s with body := pushed.dropLast })

/-- Source: `Snake::body_grow`. -/
def Snake.body_grow (s : Snake) : Snake :=
  { s with growPending := wrapInt (s.growPending + 1) }

/-- Source: `Snake::get_head`. -/
def Snake.get_head (s : Snake) : Option Vector2i :=
  s.body.head?

/-- Source: the `for` loop of `Snake::check_self_collision`, entered at index
`i`; `fuel` bounds the number of iterations still to run. -/
def Snake.collisionLoop (head : Vector2i) (body : List Vector2i) : Nat → Nat → Bool
  | 0, _ => false
  | fuel + 1, i =>
    if h : i < body.length then
      if head = body[i] then true
      else Snake.collisionLoop head body fuel (i + 1)
    else false

/-- Source: `Snake::check_self_collision`.  The loop starts at index 1 and is
given one unit of fuel per body cell. -/
def Snake.check_self_collision (s : Snake) : Option Bool :=
  match s.get_head with
  | none => none
  | some head => some (Snake.collisionLoop head s.body s.body.length 1)

/-- Source: `Snake::reset`. -/
def Snake.reset (_s : Snake) : Snake :=
  { body := [] ++ [{ x := GRID_WIDTH / 2, y := GRID_HEIGHT / 2 }],
    growPending := 3,
    direction := Direction.left }

/-! ## Vocabulary of the properties -/

/-- Every stored number of the snake is a 32-bit `int`. -/
def Snake.InRange (s : Snake) : Prop :=
  isInt s.growPending ∧ ∀ c ∈ s.body, isInt c.x ∧ isInt c.y

instance (s : Snake) : Decidable s.InRange := by
  unfold Snake.InRange
  exact inferInstance

/-- The cell one unit from `c` in direction `d`, in unbounded integers. -/
def Direction.step (d : Direction) (c : Vector2i) : Vector2i :=
  match d with
  | Direction.up => { x := c.x, y := c.y - 1 }
  | Direction.down => { x := c.x, y := c.y + 1 }
  | Direction.left => { x := c.x - 1, y := c.y }
  | Direction.right => { x := c.x + 1, y := c.y }

/-- The cell lies on the board `[0, GRID_WIDTH) × [0, GRID_HEIGHT)`. -/
def Vector2i.onGrid (c : Vector2i) : Prop :=
  0 ≤ c.x ∧ c.x < GRID_WIDTH ∧ 0 ≤ c.y ∧ c.y < GRID_HEIGHT

instance (c : Vector2i) : Decidable c.onGrid := by
  unfold Vector2i.onGrid
  exact inferInstance

/-- The direction pointing the other way. -/
def Direction.opposite : Direction → Direction
  | Direction.up => Direction.down
  | Direction.down => Direction.up
  | Direction.left => Direction.right
  | Direction.right => Direction.left

/-! ## Call sequences on a snake -/

/-- One call of a public mutating member function of `Snake`. -/
inductive Snake.Call where
  | set_direction (d : Direction)
  | update
  | body_grow
  | reset
  deriving DecidableEq, Repr

/-- The calls are made in order on the snake; the result is the final state
together with the values returned by the `update` calls, first call first. -/
def Snake.run (s : Snake) : List Snake.Call → Option (Snake × List Bool)
  | [] => some (s, [])
  | Snake.Call.set_direction d :: cs => Snake.run (s.set_direction d) cs
  | Snake.Call.update :: cs =>
    match s.update with
    | none => none
    | some (r, s1) =>
      match Snake.run s1 cs with
      | none => none
      | some (s2, rs) => some (s2, r :: rs)
  | Snake.Call.body_grow :: cs => Snake.run s.body_grow cs
  | Snake.Call.reset :: cs => Snake.run s.reset cs

/-- The call is `set_direction` or `update`: no food is eaten, nothing is reset. -/
def Snake.Call.isMove : Snake.Call → Bool
  | Snake.Call.set_direction _ => true
  | Snake.Call.update => true
  | Snake.Call.body_grow => false
  | Snake.Call.reset => false

/-- Spec-side reference, written from the spec's words and not from the code:
the values the `advance` calls of a call sequence must return for a snake
whose head is on cell `c` with heading `d`.  An advance succeeds exactly when
the cell one unit ahead is on the board, and then the head is on that cell; a
request for the exact opposite heading is ignored; growing moves nothing; a
reset puts the head back on the centre cell `(20,15)` heading left. -/
def Snake.specResults : Vector2i → Direction → List Snake.Call → List Bool
  | _, _, [] => []
  | c, d, Snake.Call.set_direction e :: cs =>
    Snake.specResults c (if e = d.opposite then d else e) cs
  | c, d, Snake.Call.update :: cs =>
    if (d.step c).onGrid then true :: Snake.specResults (d.step c) d cs
    else false :: Snake.specResults c d cs
  | c, d, Snake.Call.body_grow :: cs => Snake.specResults c d cs
  | _, _, Snake.Call.reset :: cs => Snake.specResults ⟨20, 15⟩ Direction.left cs

/-! ## Food and the controller tick -/

/-- Source: the random members of `Food` (`rd`, `gen`, `distX`, `distY`).  The
standard library's generator is a parameter: `G` is the generator state, and
`distX`, `distY` draw one value and return the advanced state.  The range
fields record the constructor arguments `distX{ 0, GRID_WIDTH - 1 }` and
`distY{ 0, GRID_HEIGHT - 1 }`. -/
structure RandomSource (G : Type) where
  distX : G → Int × G
  distY : G → Int × G
  distX_range : ∀ g, 0 ≤ (distX g).1 ∧ (distX g).1 ≤ GRID_WIDTH - 1
  distY_range : ∀ g, 0 ≤ (distY g).1 ∧ (distY g).1 ≤ GRID_HEIGHT - 1

/-- Source: the data members of `class Food`. -/
structure Food (G : Type) where
  gen : G
  position : Vector2i
  deriving DecidableEq

/-- Source: `Food::respawn`. -/
def Food.respawn {G : Type} (R : RandomSource G) (f : Food G) : Food G :=
  let dx := R.distX f.gen
  let dy := R.distY dx.2
  { gen := dy.2, position := { x := dx.1, y := dy.1 } }

/-- Source: `Food::get_position`. -/
def Food.get_position {G : Type} (f : Food G) : Vector2i :=
  f.position

/-- Source: the simulation members of `class Game`. -/
structure Game (G : Type) where
  snake : Snake
  food : Food G
  score : Int
  gameOver : Bool
  deriving DecidableEq

/-- Source: `Game::update`, without the refresh of the score text. -/
def Game.update {G : Type} (R : RandomSource G) (g : Game G) : Option (Game G) :=
  match g.snake.update with
  | none => none
  | some (moved, s1) =>
    let g1 : Game G := { g with snake := s1 }
    if !moved then
      some { g1 with gameOver := true }
    else
      match g1.snake.get_head with
      | none => none
      | some head =>
        let g2 : Game G :=
          if head = g1.food.get_position then
            { g1 with
              snake := g1.snake.body_grow,
              food := g1.food.respawn R,
              score := wrapInt (g1.score + 10) }
          else g1
        match g2.snake.check_self_collision with
        | none => none
        | some hit => some (if hit then { g2 with gameOver := true } else g2)

/-- A concrete random source for evaluation: the generator state is a counter,
`distX` yields it modulo 40 and `distY` modulo 30. -/
def counterSource : RandomSource Nat where
  distX := fun n => (((n % 40 : Nat) : Int), n + 1)
  distY := fun n => (((n % 30 : Nat) : Int), n + 1)
  distX_range := by
    intro n
    simp only [GRID_WIDTH]
    omega
  distY_range := by
    intro n
    simp only [GRID_HEIGHT]
    omega

/-! ## Events and the controller loop -/

/-- Source: the key codes of `sf::Keyboard` that `Game::handle_events` tells
apart; every other key is `other`. -/
inductive Keyboard where
  | Up
  | Down
  | Left
  | Right
  | R
  | other
  deriving DecidableEq, Repr

/-- Source: the event types of `sf::Event` that `Game::handle_events` tells
apart; every other event is `other`. -/
inductive Event where
  | Closed
  | KeyPressed (code : Keyboard)
  | other
  deriving DecidableEq, Repr

/-- Source: the state of `sf::RenderWindow window` read by the controller: the
open flag (`window.isOpen()`) and the queue of pending events, oldest first. -/
structure Window where
  isOpen : Bool
  events : List Event
  deriving DecidableEq, Repr

/-- Source: the window as `Game::Game()` creates it: open, nothing pending. -/
def Window.ctor : Window :=
  { isOpen := true, events := [] }

/-- Source: the constructor `Food::Food()`: the generator is seeded, then
`respawn()` draws the first position. -/
def Food.ctor {G : Type} (R : RandomSource G) (seed : G) : Food G :=
  Food.respawn R { gen := seed, position := { x := 0, y := 0 } }

/-- Source: the constructor `Game::Game()`. -/
def Game.ctor {G : Type} (R : RandomSource G) (seed : G) : Game G :=
  { snake := Snake.ctor, food := Food.ctor R seed, score := 0, gameOver := false }

/-- Source: the `while (window.pollEvent(event))` loop of
`Game::handle_events`, run on the queue of pending events.  The result is the
open flag of the window, the events left in the queue and the game.
`pollEvent` takes the oldest pending event and yields `false` on an empty
queue or a closed window; `window.close()` discards the window with its
queue; a `return` inside the loop leaves the later events pending. -/
def Game.handleLoop {G : Type} (R : RandomSource G) :
    List Event → Game G → Bool × List Event × Game G
  | [], g => (true, [], g)
  | Event.Closed :: _, g => (false, [], g)
  | Event.other :: rest, g => Game.handleLoop R rest g
  | Event.KeyPressed code :: rest, g =>
    if g.gameOver && code == Keyboard.R then
      Game.handleLoop R rest
        { snake := g.snake.reset, food := g.food.respawn R, score := 0, gameOver := false }
    else if !g.gameOver then
      match code with
      | Keyboard.Up =>
        (true, rest, { g with snake := g.snake.set_direction Direction.up })
      | Keyboard.Down =>
        (true, rest, { g with snake := g.snake.set_direction Direction.down })
      | Keyboard.Left =>
        (true, rest, { g with snake := g.snake.set_direction Direction.left })
      | Keyboard.Right =>
        (true, rest, { g with snake := g.snake.set_direction Direction.right })
      | _ => Game.handleLoop R rest g
    else Game.handleLoop R rest g

/-- Source: `Game::handle_events`. -/
def Game.handle_events {G : Type} (R : RandomSource G) (w : Window) (g : Game G) :
    Window × Game G :=
  if w.isOpen then
    let r := Game.handleLoop R w.events g
    ({ isOpen := r.1, events := r.2.1 }, r.2.2)
  else (w, g)

/-- Source: the body of the `while` loop of `Game::run`, without `render()`:
`handle_events()`, then `update()` unless the game is over.  `arrivals` are
the events that reached the window since the previous iteration. -/
def Game.frame {G : Type} (R : RandomSource G) (arrivals : List Event) (w : Window)
    (g : Game G) : Option (Window × Game G) :=
  let p := Game.handle_events R { w with events := w.events ++ arrivals } g
  if !p.2.gameOver then
    match Game.update R p.2 with
    | none => none
    | some g2 => some (p.1, g2)
  else some p

/-- Source: `Game::run`, one loop iteration for each entry of `frames` while
the window is open. -/
def Game.run {G : Type} (R : RandomSource G) :
    List (List Event) → Window → Game G → Option (Window × Game G)
  | [], w, g => some (w, g)
  | arrivals :: later, w, g =>
    if w.isOpen then
      match Game.frame R arrivals w g with
      | none => none
      | some p => Game.run R later p.1 p.2
    else some (w, g)

/-- The direction requested by a key, if it is a direction key. -/
def Keyboard.direction? : Keyboard → Option Direction
  | Keyboard.Up => some Direction.up
  | Keyboard.Down => some Direction.down
  | Keyboard.Left => some Direction.left
  | Keyboard.Right => some Direction.right
  | Keyboard.R => none
  | Keyboard.other => none

/-! ## Invariants of the controller loop -/

/-- The bookkeeping that every game reached from a fresh one satisfies: the
body is non-empty and on the grid, growPending lies in `[0, 3]`, score counts
ten per cell owed beyond the initial four, and the body has no repeated cell
while the game is running. -/
def Game.Sound {G : Type} (g : Game G) : Prop :=
  g.snake.body ≠ [] ∧
  (∀ c ∈ g.snake.body, c.onGrid) ∧
  0 ≤ g.snake.growPending ∧ g.snake.growPending ≤ 3 ∧
  4 ≤ (g.snake.body.length : Int) + g.snake.growPending ∧
  g.score = 10 * ((g.snake.body.length : Int) + g.snake.growPending - 4) ∧
  g.snake.body.length ≤ 1201 ∧
  (g.gameOver = false → g.snake.body.Nodup)

/-- While the game is running the head lies one step in the heading from the
second body cell: the heading is the one of the last move. -/
def Game.Neck {G : Type} (g : Game G) : Prop :=
  g.gameOver = false →
    ∀ h n t, g.snake.body = h :: n :: t → h = g.snake.direction.step n

/-- While the game is running the heading does not point from the head to the
second body cell. -/
def Game.NoReverse {G : Type} (g : Game G) : Prop :=
  g.gameOver = false →
    ∀ h n t, g.snake.body = h :: n :: t → g.snake.direction.step h ≠ n

/-! ## Lemmas on machine integers and the collision loop -/

theorem wrapInt_of_isInt (z : Int) (h : isInt z) : wrapInt z = z := by
  unfold isInt INT_MIN INT_MAX at h
  unfold wrapInt
  omega

theorem Snake.collisionLoop_iff (head : Vector2i) (body : List Vector2i) :
    ∀ (fuel i : Nat), body.length ≤ fuel + i →
      (Snake.collisionLoop head body fuel i = true ↔
        ∃ j, ∃ h : j < body.length, i ≤ j ∧ body[j] = head) := by
  intro fuel
  induction fuel with
  | zero =>
    intro i hi
    simp only [Snake.collisionLoop]
    constructor
    · intro h
      cases h
    · rintro ⟨j, hj, hij, _⟩
      omega
  | succ n ih =>
    intro i hi
    unfold Snake.collisionLoop
    by_cases hlt : i < body.length
    · simp only [hlt, dite_true]
      by_cases heq : head = body[i]
      · simp only [heq, if_true, true_iff]
        exact ⟨i, hlt, le_refl i, rfl⟩
      · simp only [heq, if_false]
        rw [ih (i + 1) (by omega)]
        constructor
        · rintro ⟨j, hj, hij, hb⟩
          exact ⟨j, hj, by omega, hb⟩
        · rintro ⟨j, hj, hij, hb⟩
          have hne : j ≠ i := by
            intro hji
            subst hji
            exact heq hb.symm
          exact ⟨j, hj, by omega, hb⟩
    · simp only [hlt, dite_false]
      constructor
      · intro h
        cases h
      · rintro ⟨j, hj, hij, _⟩
        omega

theorem Snake.set_direction_body (s : Snake) (d : Direction) :
    (s.set_direction d).body = s.body := by
  unfold Snake.set_direction
  split_ifs <;> rfl

theorem Snake.set_direction_growPending (s : Snake) (d : Direction) :
    (s.set_direction d).growPending = s.growPending := by
  unfold Snake.set_direction
  split_ifs <;> rfl

theorem Snake.check_self_collision_cons (s : Snake) (head : Vector2i) (rest : List Vector2i)
    (hbody : s.body = head :: rest) :
    s.check_self_collision = some (Snake.collisionLoop head s.body s.body.length 1) := by
  simp [Snake.check_self_collision, Snake.get_head, hbody]

/-! ## Properties of the snake operations -/

/-- C1: for a snake whose front cell holds `int` coordinates, `update` returns
`false` exactly when the cell one step from the head in the current heading has
`x < 0`, `y < 0`, `x >= 40` or `y >= 30`, and in that case body, heading and
growPending are unchanged. -/
theorem Snake.update_boundary (s : Snake) (front : Vector2i) (rest : List Vector2i)
    (hbody : s.body = front :: rest) (hx : isInt front.x) (hy : isInt front.y) :
    ∃ r s', s.update = some (r, s') ∧
      (r = false ↔
        ((s.direction.step front).x < 0 ∨ (s.direction.step front).y < 0 ∨
          (s.direction.step front).x ≥ 40 ∨ (s.direction.step front).y ≥ 30)) ∧
      (r = false →
        s'.body = s.body ∧ s'.direction = s.direction ∧ s'.growPending = s.growPending) := by
  obtain ⟨body, dir, gp⟩ := s
  simp only at hbody
  subst hbody
  unfold isInt INT_MIN INT_MAX at hx hy
  cases dir <;>
    simp only [Snake.update, Snake.moveHead, Direction.step, wrapInt, GRID_WIDTH, GRID_HEIGHT] <;>
    split_ifs with h1 h2 <;>
    refine ⟨_, _, rfl, ?_, ?_⟩ <;>
    simp <;> omega

/-- The boundary scenario: heading left with the head at `(0,15)`. -/
theorem Snake.update_boundary_witness :
    ∃ r s', (Snake.mk [⟨0, 15⟩, ⟨1, 15⟩] Direction.left 0).update = some (r, s') ∧
      (r = false ↔
        ((Direction.left.step ⟨0, 15⟩).x < 0 ∨ (Direction.left.step ⟨0, 15⟩).y < 0 ∨
          (Direction.left.step ⟨0, 15⟩).x ≥ 40 ∨ (Direction.left.step ⟨0, 15⟩).y ≥ 30)) ∧
      (r = false →
        s'.body = [⟨0, 15⟩, ⟨1, 15⟩] ∧ s'.direction = Direction.left ∧ s'.growPending = 0) :=
  Snake.update_boundary (Snake.mk [⟨0, 15⟩, ⟨1, 15⟩] Direction.left 0) ⟨0, 15⟩ [⟨1, 15⟩] rfl
    (by decide) (by decide)

/-- C2: when the cell one step from the head in the current heading is on the
grid, `update` returns `true` and keeps the heading; with growPending > 0 the
new body is that cell followed by the old body, growPending drops by one and
the length grows by one; with growPending = 0 (more generally, not positive)
the new body is that cell followed by the old body without its last cell,
growPending keeps its value and the length is unchanged. -/
theorem Snake.update_success (s : Snake) (front : Vector2i) (rest : List Vector2i)
    (hbody : s.body = front :: rest) (hr : s.InRange)
    (hgrid : (s.direction.step front).onGrid) :
    ∃ s', s.update = some (true, s') ∧ s'.direction = s.direction ∧
      (s.growPending > 0 →
        s'.body = s.direction.step front :: s.body ∧
        s'.growPending = s.growPending - 1 ∧
        s'.body.length = s.body.length + 1) ∧
      (s.growPending ≤ 0 →
        s'.body = s.direction.step front :: s.body.dropLast ∧
        s'.growPending = s.growPending ∧
        s'.body.length = s.body.length) := by
  obtain ⟨body, dir, gp⟩ := s
  simp only at hbody
  subst hbody
  obtain ⟨hgp, hcells⟩ := hr
  obtain ⟨hx, hy⟩ := hcells front (List.mem_cons_self _ _)
  simp only at hgp hgrid
  unfold isInt INT_MIN INT_MAX at hx hy hgp
  have hmove : Snake.moveHead dir front = dir.step front := by
    cases dir <;>
      simp only [Direction.step, Vector2i.onGrid, GRID_WIDTH, GRID_HEIGHT] at hgrid <;>
      simp only [Snake.moveHead, Direction.step, wrapInt, Vector2i.mk.injEq, true_and, and_true] <;>
      omega
  have hcheck : ¬ ((dir.step front).x < 0 ∨ (dir.step front).y < 0 ∨
      (dir.step front).x ≥ GRID_WIDTH ∨ (dir.step front).y ≥ GRID_HEIGHT) := by
    obtain ⟨g1, g2, g3, g4⟩ := hgrid
    omega
  simp only [Snake.update, hmove, hcheck, if_false]
  by_cases hpos : gp > 0
  · refine ⟨_, by rw [if_pos hpos], rfl, ?_, ?_⟩
    · intro _
      refine ⟨rfl, ?_, by simp⟩
      simp only [wrapInt]
      omega
    · intro hle
      omega
  · refine ⟨_, by rw [if_neg hpos], rfl, ?_, ?_⟩
    · intro h
      exact absurd h hpos
    · intro _
      refine ⟨by simp [List.dropLast], rfl, by simp⟩

/-- A growing and a non-growing successful step at concrete states. -/
theorem Snake.update_success_witness :
    (∃ s', (Snake.mk [⟨5, 5⟩, ⟨6, 5⟩] Direction.up 0).update = some (true, s') ∧
      s'.direction = Direction.up ∧
      ((0 : Int) > 0 →
        s'.body = Direction.up.step ⟨5, 5⟩ :: [⟨5, 5⟩, ⟨6, 5⟩] ∧
        s'.growPending = 0 - 1 ∧
        s'.body.length = [(⟨5, 5⟩ : Vector2i), ⟨6, 5⟩].length + 1) ∧
      ((0 : Int) ≤ 0 →
        s'.body = Direction.up.step ⟨5, 5⟩ :: [(⟨5, 5⟩ : Vector2i), ⟨6, 5⟩].dropLast ∧
        s'.growPending = 0 ∧
        s'.body.length = [(⟨5, 5⟩ : Vector2i), ⟨6, 5⟩].length)) ∧
    (Snake.mk [⟨5, 5⟩, ⟨6, 5⟩] Direction.up 0).update =
      some (true, Snake.mk [⟨5, 4⟩, ⟨5, 5⟩] Direction.up 0) ∧
    (Snake.mk [⟨5, 5⟩, ⟨6, 5⟩] Direction.up 2).update =
      some (true, Snake.mk [⟨5, 4⟩, ⟨5, 5⟩, ⟨6, 5⟩] Direction.up 1) :=
  ⟨Snake.update_success (Snake.mk [⟨5, 5⟩, ⟨6, 5⟩] Direction.up 0) ⟨5, 5⟩ [⟨6, 5⟩] rfl
    (by decide) (by decide), by decide, by decide⟩

/-- C3: if `d` is the exact opposite of the current heading, `set_direction d`
leaves the whole state unchanged; otherwise the heading becomes `d`; in both
cases body and growPending are unchanged. -/
theorem Snake.set_direction_spec (s : Snake) (d : Direction) :
    (d = s.direction.opposite → s.set_direction d = s) ∧
    (d ≠ s.direction.opposite → (s.set_direction d).direction = d) ∧
    (s.set_direction d).body = s.body ∧
    (s.set_direction d).growPending = s.growPending := by
  obtain ⟨body, dir, gp⟩ := s
  cases dir <;> cases d <;> simp [Snake.set_direction, Direction.opposite]

/-- The reversal scenario: heading left, request right leaves the heading
left; request up turns the snake. -/
theorem Snake.set_direction_spec_witness :
    (Snake.mk [⟨20, 15⟩] Direction.left 3).set_direction Direction.right =
      Snake.mk [⟨20, 15⟩] Direction.left 3 ∧
    ((Snake.mk [⟨20, 15⟩] Direction.left 3).set_direction Direction.up).direction =
      Direction.up :=
  ⟨(Snake.set_direction_spec (Snake.mk [⟨20, 15⟩] Direction.left 3) Direction.right).1 rfl,
   (Snake.set_direction_spec (Snake.mk [⟨20, 15⟩] Direction.left 3) Direction.up).2.1
     (by decide)⟩

/-- C4: on a non-empty body `check_self_collision` returns a value, and that
value is `true` if and only if the head cell equals the cell at some index `i`
with `1 <= i < body length`; it is `false` for every body without repeated
cells, in particular for every body of length 1. -/
theorem Snake.check_self_collision_spec (s : Snake) (head : Vector2i) (rest : List Vector2i)
    (hbody : s.body = head :: rest) :
    ∃ r, s.check_self_collision = some r ∧
      (r = true ↔ ∃ i, ∃ h : i < s.body.length, 1 ≤ i ∧ s.body[i] = head) ∧
      (s.body.Nodup → r = false) ∧
      (s.body.length = 1 → r = false) := by
  have hiff := Snake.collisionLoop_iff head s.body s.body.length 1 (by omega)
  refine ⟨Snake.collisionLoop head s.body s.body.length 1, ?_, hiff, ?_, ?_⟩
  · exact Snake.check_self_collision_cons s head rest hbody
  · intro hnd
    cases hloop : Snake.collisionLoop head s.body s.body.length 1 with
    | false => rfl
    | true =>
      exfalso
      obtain ⟨j, hj, h1, hb⟩ := hiff.mp hloop
      have h0 : 0 < s.body.length := by omega
      have hfront : s.body[0] = head := by
        simp [hbody]
      have hji : j = 0 := by
        have hsame : s.body[j] = s.body[0] := hb.trans hfront.symm
        exact (List.Nodup.getElem_inj_iff hnd).mp hsame
      omega
  · intro hlen
    cases hloop : Snake.collisionLoop head s.body s.body.length 1 with
    | false => rfl
    | true =>
      exfalso
      obtain ⟨j, hj, h1, _⟩ := hiff.mp hloop
      omega

/-- A body whose head cell recurs at index 2. -/
theorem Snake.check_self_collision_spec_witness :
    ∃ r, (Snake.mk [⟨3, 3⟩, ⟨3, 4⟩, ⟨3, 3⟩] Direction.up 0).check_self_collision = some r ∧
      (r = true ↔ ∃ i, ∃ h : i < [(⟨3, 3⟩ : Vector2i), ⟨3, 4⟩, ⟨3, 3⟩].length,
        1 ≤ i ∧ [(⟨3, 3⟩ : Vector2i), ⟨3, 4⟩, ⟨3, 3⟩][i] = ⟨3, 3⟩) ∧
      ([(⟨3, 3⟩ : Vector2i), ⟨3, 4⟩, ⟨3, 3⟩].Nodup → r = false) ∧
      ([(⟨3, 3⟩ : Vector2i), ⟨3, 4⟩, ⟨3, 3⟩].length = 1 → r = false) :=
  Snake.check_self_collision_spec (Snake.mk [⟨3, 3⟩, ⟨3, 4⟩, ⟨3, 3⟩] Direction.up 0)
    ⟨3, 3⟩ [⟨3, 4⟩, ⟨3, 3⟩] rfl

/-- C5: `reset` from any state yields body `[(20,15)]`, heading left and
growPending 3, which is the state built by the constructor; `reset` is
idempotent. -/
theorem Snake.reset_spec (s : Snake) :
    s.reset = Snake.mk [⟨20, 15⟩] Direction.left 3 ∧
    s.reset = Snake.ctor ∧
    s.reset.reset = s.reset := by
  exact ⟨rfl, rfl, rfl⟩

/-! ## Sequences of calls -/

/-- The two outcomes of `update` on a non-empty body, read off the code. -/
theorem Snake.update_shape (s : Snake) (front : Vector2i) (rest : List Vector2i)
    (hbody : s.body = front :: rest) :
    (¬ (Snake.moveHead s.direction front).onGrid ∧ s.update = some (false, s)) ∨
    ((Snake.moveHead s.direction front).onGrid ∧
      s.update = some (true,
        { body := Snake.moveHead s.direction front ::
            (if s.growPending > 0 then s.body else s.body.dropLast),
          direction := s.direction,
          growPending :=
            if s.growPending > 0 then wrapInt (s.growPending - 1) else s.growPending })) := by
  obtain ⟨body, dir, gp⟩ := s
  simp only at hbody
  subst hbody
  simp only [Snake.update, Vector2i.onGrid, GRID_WIDTH, GRID_HEIGHT]
  by_cases hout : (Snake.moveHead dir front).x < 0 ∨ (Snake.moveHead dir front).y < 0 ∨
      (Snake.moveHead dir front).x ≥ 40 ∨ (Snake.moveHead dir front).y ≥ 30
  · left
    refine ⟨by omega, by rw [if_pos hout]⟩
  · right
    refine ⟨by omega, ?_⟩
    rw [if_neg hout]
    by_cases hpos : gp > 0
    · simp only [hpos, if_true]
    · simp only [hpos, if_false, List.dropLast]

/-- Every sequence of calls runs to completion from a state whose body is
non-empty and on the grid, and ends in such a state. -/
theorem Snake.run_onGrid (calls : List Snake.Call) :
    ∀ s : Snake, s.body ≠ [] → (∀ c ∈ s.body, c.onGrid) →
      ∃ s' rs, s.run calls = some (s', rs) ∧ s'.body ≠ [] ∧ ∀ c ∈ s'.body, c.onGrid := by
  induction calls with
  | nil =>
    intro s hne hgrid
    exact ⟨s, [], rfl, hne, hgrid⟩
  | cons call cs ih =>
    intro s hne hgrid
    cases call with
    | set_direction d =>
      have hb : (s.set_direction d).body = s.body := Snake.set_direction_body s d
      obtain ⟨s', rs, hrun, h1, h2⟩ := ih (s.set_direction d) (by rw [hb]; exact hne)
        (by rw [hb]; exact hgrid)
      exact ⟨s', rs, by simpa [Snake.run] using hrun, h1, h2⟩
    | body_grow =>
      obtain ⟨s', rs, hrun, h1, h2⟩ := ih s.body_grow hne hgrid
      exact ⟨s', rs, by simpa [Snake.run] using hrun, h1, h2⟩
    | reset =>
      obtain ⟨s', rs, hrun, h1, h2⟩ := ih s.reset (by simp [Snake.reset])
        (by
          intro c hc
          simp only [Snake.reset, List.nil_append, List.mem_singleton] at hc
          subst hc
          decide)
      exact ⟨s', rs, by simpa [Snake.run] using hrun, h1, h2⟩
    | update =>
      obtain ⟨front, rest, hbody⟩ := List.exists_cons_of_ne_nil hne
      rcases Snake.update_shape s front rest hbody with ⟨_, hupd⟩ | ⟨hon, hupd⟩
      · obtain ⟨s', rs, hrun, h1, h2⟩ := ih s hne hgrid
        exact ⟨s', false :: rs, by simp [Snake.run, hupd, hrun], h1, h2⟩
      · obtain ⟨s', rs, hrun, h1, h2⟩ := ih
          (Snake.mk (Snake.moveHead s.direction front ::
              (if s.growPending > 0 then s.body else s.body.dropLast)) s.direction
            (if s.growPending > 0 then wrapInt (s.growPending - 1) else s.growPending))
          (List.cons_ne_nil _ _)
          (by
            intro c hc
            rcases List.mem_cons.mp hc with rfl | hc
            · exact hon
            · split_ifs at hc
              · exact hgrid c hc
              · exact hgrid c (List.mem_of_mem_dropLast hc))
        exact ⟨s', true :: rs, by simp [Snake.run, hupd, hrun], h1, h2⟩

/-- Length and growPending after a sequence of `set_direction` and `update`
calls, in terms of the number of `update` calls that returned `true`. -/
theorem Snake.run_moves (calls : List Snake.Call) :
    ∀ s : Snake, s.body ≠ [] → isInt s.growPending → 0 ≤ s.growPending →
      (∀ c ∈ calls, c.isMove = true) →
      ∃ s' rs, s.run calls = some (s', rs) ∧
        (s'.body.length : Int) = s.body.length + min (rs.count true : Int) s.growPending ∧
        s'.growPending = max (s.growPending - rs.count true) 0 := by
  induction calls with
  | nil =>
    intro s _ _ h0 _
    refine ⟨s, [], rfl, ?_, ?_⟩
    · simp only [List.count_nil, Nat.cast_zero]
      omega
    · simp only [List.count_nil, Nat.cast_zero]
      omega
  | cons call cs ih =>
    intro s hne hint h0 hmoves
    have hcs : ∀ c ∈ cs, c.isMove = true := fun c hc => hmoves c (List.mem_cons_of_mem _ hc)
    cases call with
    | body_grow =>
      have := hmoves Snake.Call.body_grow (List.mem_cons_self _ _)
      simp [Snake.Call.isMove] at this
    | reset =>
      have := hmoves Snake.Call.reset (List.mem_cons_self _ _)
      simp [Snake.Call.isMove] at this
    | set_direction d =>
      have hb : (s.set_direction d).body = s.body := Snake.set_direction_body s d
      have hg : (s.set_direction d).growPending = s.growPending :=
        Snake.set_direction_growPending s d
      obtain ⟨s', rs, hrun, h1, h2⟩ := ih (s.set_direction d) (by rw [hb]; exact hne)
        (by rw [hg]; exact hint) (by rw [hg]; exact h0) hcs
      rw [hb, hg] at h1
      rw [hg] at h2
      exact ⟨s', rs, by simpa [Snake.run] using hrun, h1, h2⟩
    | update =>
      obtain ⟨front, rest, hbody⟩ := List.exists_cons_of_ne_nil hne
      unfold isInt INT_MIN INT_MAX at hint
      rcases Snake.update_shape s front rest hbody with ⟨_, hupd⟩ | ⟨_, hupd⟩
      · obtain ⟨s', rs, hrun, h1, h2⟩ := ih s hne (by unfold isInt INT_MIN INT_MAX; exact hint)
          h0 hcs
        refine ⟨s', false :: rs, by simp [Snake.run, hupd, hrun], ?_, ?_⟩
        · simpa using h1
        · simpa using h2
      · by_cases hpos : s.growPending > 0
        · simp only [hpos, if_true] at hupd
          have hw : wrapInt (s.growPending - 1) = s.growPending - 1 := by
            unfold wrapInt
            omega
          rw [hw] at hupd
          obtain ⟨s', rs, hrun, h1, h2⟩ := ih
            (Snake.mk (Snake.moveHead s.direction front :: s.body) s.direction
              (s.growPending - 1))
            (List.cons_ne_nil _ _)
            (by unfold isInt INT_MIN INT_MAX; simp only; omega) (by simp only; omega) hcs
          refine ⟨s', true :: rs, by simp [Snake.run, hupd, hrun], ?_, ?_⟩
          · simp only [List.length_cons, Nat.cast_add, Nat.cast_one] at h1
            simp only [List.count_cons_self, Nat.cast_add, Nat.cast_one]
            omega
          · simp only at h2
            simp only [List.count_cons_self, Nat.cast_add, Nat.cast_one]
            omega
        · simp only [hpos, if_false] at hupd
          obtain ⟨s', rs, hrun, h1, h2⟩ := ih
            (Snake.mk (Snake.moveHead s.direction front :: s.body.dropLast) s.direction
              s.growPending)
            (List.cons_ne_nil _ _)
            (by unfold isInt INT_MIN INT_MAX; simp only; omega) (by simp only; omega) hcs
          refine ⟨s', true :: rs, by simp [Snake.run, hupd, hrun], ?_, ?_⟩
          · have hlen : s.body.dropLast.length + 1 = s.body.length := by
              rw [hbody]
              simp
            simp only [List.length_cons, Nat.cast_add, Nat.cast_one] at h1
            simp only [List.count_cons_self, Nat.cast_add, Nat.cast_one]
            omega
          · simp only at h2
            simp only [List.count_cons_self, Nat.cast_add, Nat.cast_one]
            omega

/-- The list of results of a run has one entry per `update` call. -/
theorem Snake.run_results_length (calls : List Snake.Call) :
    ∀ (s s' : Snake) (rs : List Bool), s.run calls = some (s', rs) →
      rs.length = calls.count Snake.Call.update := by
  induction calls with
  | nil =>
    intro s s' rs h
    simp only [Snake.run, Option.some.injEq, Prod.mk.injEq] at h
    simp [← h.2]
  | cons call cs ih =>
    intro s s' rs h
    cases call with
    | set_direction d =>
      simp only [Snake.run] at h
      simpa using ih _ _ _ h
    | body_grow =>
      simp only [Snake.run] at h
      simpa using ih _ _ _ h
    | reset =>
      simp only [Snake.run] at h
      simpa using ih _ _ _ h
    | update =>
      simp only [Snake.run] at h
      cases hupd : s.update with
      | none => simp [hupd] at h
      | some p =>
        obtain ⟨r, s1⟩ := p
        simp only [hupd] at h
        cases hrun : Snake.run s1 cs with
        | none => simp [hrun] at h
        | some q =>
          obtain ⟨s2, rs2⟩ := q
          simp only [hrun, Option.some.injEq, Prod.mk.injEq] at h
          have := ih _ _ _ hrun
          simp [← h.2, this]

/-- When the machine step from an `int` cell lands on the grid, it is the
unbounded step. -/
theorem Snake.moveHead_eq_step_of_onGrid (d : Direction) (c : Vector2i) (hx : isInt c.x)
    (hy : isInt c.y) (hon : (Snake.moveHead d c).onGrid) : Snake.moveHead d c = d.step c := by
  unfold isInt INT_MIN INT_MAX at hx hy
  obtain ⟨h1, h2, h3, h4⟩ := hon
  simp only [GRID_WIDTH, GRID_HEIGHT] at h2 h4
  cases d <;>
    simp only [Snake.moveHead, wrapInt] at h1 h2 h3 h4 <;>
    simp only [Snake.moveHead, Direction.step, wrapInt, Vector2i.mk.injEq, true_and, and_true] <;>
    omega

/-- From an `int` cell the machine step lands on the grid exactly when the
unbounded step does. -/
theorem Snake.moveHead_onGrid_iff (d : Direction) (c : Vector2i) (hx : isInt c.x)
    (hy : isInt c.y) : (Snake.moveHead d c).onGrid ↔ (d.step c).onGrid := by
  unfold isInt INT_MIN INT_MAX at hx hy
  cases d <;>
    simp only [Snake.moveHead, Direction.step, Vector2i.onGrid, wrapInt, GRID_WIDTH,
      GRID_HEIGHT] <;>
    omega

/-- A cell of the grid has `int` coordinates. -/
theorem Vector2i.isInt_of_onGrid (c : Vector2i) (hc : c.onGrid) : isInt c.x ∧ isInt c.y := by
  obtain ⟨h1, h2, h3, h4⟩ := hc
  simp only [GRID_WIDTH, GRID_HEIGHT] at h2 h4
  unfold isInt INT_MIN INT_MAX
  omega

/-- The heading after `set_direction`, in terms of the opposite heading. -/
theorem Snake.set_direction_direction (s : Snake) (e : Direction) :
    (s.set_direction e).direction = if e = s.direction.opposite then s.direction else e := by
  obtain ⟨body, dir, gp⟩ := s
  cases dir <;> cases e <;> simp [Snake.set_direction, Direction.opposite]

/-- The values returned by the `update` calls of a run are those of the
spec-side reference. -/
theorem Snake.run_specResults (calls : List Snake.Call) :
    ∀ (s : Snake) (front : Vector2i) (rest : List Vector2i), s.body = front :: rest →
      isInt front.x → isInt front.y →
      ∃ s' rs, s.run calls = some (s', rs) ∧
        rs = Snake.specResults front s.direction calls := by
  induction calls with
  | nil =>
    intro s front rest _ _ _
    exact ⟨s, [], rfl, rfl⟩
  | cons call cs ih =>
    intro s front rest hbody hx hy
    cases call with
    | set_direction e =>
      have hb : (s.set_direction e).body = front :: rest := by
        rw [Snake.set_direction_body, hbody]
      obtain ⟨s', rs, hrun, hrs⟩ := ih (s.set_direction e) front rest hb hx hy
      refine ⟨s', rs, by simpa [Snake.run] using hrun, ?_⟩
      rw [hrs, Snake.set_direction_direction]
      rfl
    | body_grow =>
      obtain ⟨s', rs, hrun, hrs⟩ := ih s.body_grow front rest hbody hx hy
      exact ⟨s', rs, by simpa [Snake.run] using hrun, hrs⟩
    | reset =>
      obtain ⟨s', rs, hrun, hrs⟩ := ih s.reset ⟨20, 15⟩ [] rfl (by decide) (by decide)
      exact ⟨s', rs, by simpa [Snake.run] using hrun, hrs⟩
    | update =>
      have hiff := Snake.moveHead_onGrid_iff s.direction front hx hy
      rcases Snake.update_shape s front rest hbody with ⟨hoff, hupd⟩ | ⟨hon, hupd⟩
      · obtain ⟨s', rs, hrun, hrs⟩ := ih s front rest hbody hx hy
        refine ⟨s', false :: rs, by simp [Snake.run, hupd, hrun], ?_⟩
        have hoff' : ¬ (s.direction.step front).onGrid := fun h => hoff (hiff.mpr h)
        simp only [Snake.specResults, hoff', if_false, hrs]
      · have hon' : (s.direction.step front).onGrid := hiff.mp hon
        have hstep := Snake.moveHead_eq_step_of_onGrid s.direction front hx hy hon
        obtain ⟨hx1, hy1⟩ := Vector2i.isInt_of_onGrid _ hon'
        obtain ⟨s', rs, hrun, hrs⟩ := ih
          (Snake.mk (Snake.moveHead s.direction front ::
              (if s.growPending > 0 then s.body else s.body.dropLast)) s.direction
            (if s.growPending > 0 then wrapInt (s.growPending - 1) else s.growPending))
          (s.direction.step front)
          (if s.growPending > 0 then s.body else s.body.dropLast)
          (by rw [hstep]) hx1 hy1
        refine ⟨s', true :: rs, by simp [Snake.run, hupd, hrun], ?_⟩
        simp only [Snake.specResults, hon', if_true, hrs]

/-- C6: `body_grow` increments growPending by exactly one (short of `INT_MAX`)
and leaves body and heading unchanged.  From a state with growPending = 0
whose head holds `int` coordinates, one `body_grow` followed by an `update`
onto a board cell returns `true` and keeps every old cell behind the new head
(one cell longer, growPending back to 0); and followed by any `set_direction`
and `update` calls, the `update` calls return what the spec-side reference
says, the body is exactly one cell longer as soon as one of them has returned
`true`, and it is at that length after every later `update`. -/
theorem Snake.body_grow_deferred (s : Snake) :
    (s.body_grow.body = s.body ∧ s.body_grow.direction = s.direction) ∧
    (isInt s.growPending → s.growPending < INT_MAX →
      s.body_grow.growPending = s.growPending + 1) ∧
    (s.growPending = 0 →
      ∀ (front : Vector2i) (rest : List Vector2i), s.body = front :: rest →
        isInt front.x → isInt front.y →
        ((s.direction.step front).onGrid →
          s.body_grow.update =
            some (true, Snake.mk (s.direction.step front :: s.body) s.direction 0)) ∧
        ∀ calls : List Snake.Call, (∀ c ∈ calls, c.isMove = true) →
          ∃ s' rs, s.body_grow.run calls = some (s', rs) ∧
            rs = Snake.specResults front s.direction calls ∧
            s'.body.length = s.body.length + (if rs.count true = 0 then 0 else 1) ∧
            s'.growPending = (if rs.count true = 0 then 1 else 0)) := by
  refine ⟨⟨rfl, rfl⟩, ?_, ?_⟩
  · intro hint hmax
    unfold isInt INT_MIN INT_MAX at hint
    unfold INT_MAX at hmax
    simp only [Snake.body_grow, wrapInt]
    omega
  · intro h0 front rest hbody hx hy
    have hg : s.body_grow.growPending = 1 := by
      simp only [Snake.body_grow, h0, wrapInt]
      decide
    have hb : s.body_grow.body = s.body := rfl
    have hd : s.body_grow.direction = s.direction := rfl
    constructor
    · intro hon
      have hon' : (Snake.moveHead s.direction front).onGrid :=
        (Snake.moveHead_onGrid_iff s.direction front hx hy).mpr hon
      have hstep := Snake.moveHead_eq_step_of_onGrid s.direction front hx hy hon'
      rcases Snake.update_shape s.body_grow front rest (by rw [hb, hbody]) with
        ⟨hoff, _⟩ | ⟨_, hupd⟩
      · rw [hd] at hoff
        exact absurd hon' hoff
      · rw [hupd, hg, hd, hb, hstep]
        simp only [gt_iff_lt, zero_lt_one, if_true, sub_self]
        rfl
    · intro calls hmoves
      obtain ⟨s', rs, hrun, h1, h2⟩ := Snake.run_moves calls s.body_grow
        (by rw [hb, hbody]; exact List.cons_ne_nil _ _)
        (by rw [hg]; decide) (by rw [hg]; decide) hmoves
      obtain ⟨s2, rs2, hrun2, hrs2⟩ := Snake.run_specResults calls s.body_grow front rest
        (by rw [hb, hbody]) hx hy
      rw [hrun] at hrun2
      simp only [Option.some.injEq, Prod.mk.injEq] at hrun2
      rw [← hrun2.2, hd] at hrs2
      rw [hg] at h1 h2
      rw [hb] at h1
      refine ⟨s', rs, hrun, hrs2, ?_, ?_⟩
      · split_ifs with hz
        · rw [hz] at h1
          simp only [Nat.cast_zero] at h1
          omega
        · omega
      · split_ifs with hz
        · rw [hz] at h2
          simpa using h2
        · omega

/-- A snake of length 2 with growPending 0 that grows once and then moves
three cells with one turn: the first move keeps the tail, every `update`
returns `true`, and the body has 3 cells from then on. -/
theorem Snake.body_grow_deferred_witness :
    (Snake.mk [⟨5, 5⟩, ⟨6, 5⟩] Direction.left 0).body_grow.growPending = 0 + 1 ∧
    (Snake.mk [⟨5, 5⟩, ⟨6, 5⟩] Direction.left 0).body_grow.update =
      some (true, Snake.mk (Direction.left.step ⟨5, 5⟩ :: [⟨5, 5⟩, ⟨6, 5⟩]) Direction.left 0) ∧
    (∃ s' rs, (Snake.mk [⟨5, 5⟩, ⟨6, 5⟩] Direction.left 0).body_grow.run
        [Snake.Call.update, Snake.Call.set_direction Direction.up, Snake.Call.update,
          Snake.Call.update] = some (s', rs) ∧
      rs = Snake.specResults ⟨5, 5⟩ Direction.left
        [Snake.Call.update, Snake.Call.set_direction Direction.up, Snake.Call.update,
          Snake.Call.update] ∧
      s'.body.length = [(⟨5, 5⟩ : Vector2i), ⟨6, 5⟩].length +
        (if rs.count true = 0 then 0 else 1) ∧
      s'.growPending = (if rs.count true = 0 then 1 else 0)) ∧
    (Snake.mk [⟨5, 5⟩, ⟨6, 5⟩] Direction.left 0).body_grow.update =
      some (true, Snake.mk [⟨4, 5⟩, ⟨5, 5⟩, ⟨6, 5⟩] Direction.left 0) ∧
    (Snake.mk [⟨5, 5⟩, ⟨6, 5⟩] Direction.left 0).body_grow.run
        [Snake.Call.update, Snake.Call.set_direction Direction.up, Snake.Call.update,
          Snake.Call.update] =
      some (Snake.mk [⟨4, 3⟩, ⟨4, 4⟩, ⟨4, 5⟩] Direction.up 0, [true, true, true]) :=
  ⟨(Snake.body_grow_deferred (Snake.mk [⟨5, 5⟩, ⟨6, 5⟩] Direction.left 0)).2.1
      (by decide) (by decide),
   ((Snake.body_grow_deferred (Snake.mk [⟨5, 5⟩, ⟨6, 5⟩] Direction.left 0)).2.2 rfl
      ⟨5, 5⟩ [⟨6, 5⟩] rfl (by decide) (by decide)).1 (by decide),
   ((Snake.body_grow_deferred (Snake.mk [⟨5, 5⟩, ⟨6, 5⟩] Direction.left 0)).2.2 rfl
      ⟨5, 5⟩ [⟨6, 5⟩] rfl (by decide) (by decide)).2 _ (by decide),
   by decide, by decide⟩

/-- C7: every sequence of `set_direction`, `update`, `body_grow` and `reset`
calls on a freshly constructed snake runs to completion, and in the state it
reaches every body cell `(x, y)` has `0 <= x < 40` and `0 <= y < 30`; a further
`update` there either returns `false` and changes nothing, or returns `true`
and stores a head cell on the grid. -/
theorem Snake.reachable_onGrid (calls : List Snake.Call) :
    ∃ s' rs, Snake.ctor.run calls = some (s', rs) ∧
      (∀ c ∈ s'.body, 0 ≤ c.x ∧ c.x < 40 ∧ 0 ≤ c.y ∧ c.y < 30) ∧
      ∃ r s2, s'.update = some (r, s2) ∧
        (if r = true then
          ∃ h t, s2.body = h :: t ∧ 0 ≤ h.x ∧ h.x < 40 ∧ 0 ≤ h.y ∧ h.y < 30
        else s2 = s') := by
  obtain ⟨s', rs, hrun, hne, hgrid⟩ := Snake.run_onGrid calls Snake.ctor
    (by simp [Snake.ctor])
    (by
      intro c hc
      simp only [Snake.ctor, List.nil_append, List.mem_singleton] at hc
      subst hc
      decide)
  refine ⟨s', rs, hrun, hgrid, ?_⟩
  obtain ⟨front, rest, hbody⟩ := List.exists_cons_of_ne_nil hne
  rcases Snake.update_shape s' front rest hbody with ⟨_, hupd⟩ | ⟨hon, hupd⟩
  · exact ⟨false, s', hupd, by simp⟩
  · refine ⟨true, _, hupd, ?_⟩
    simp only [if_true]
    exact ⟨_, _, rfl, hon⟩

/-- A run that walks into the left wall, grows, resets and turns. -/
theorem Snake.reachable_onGrid_witness :
    ∃ s' rs, Snake.ctor.run
        (List.replicate 22 Snake.Call.update ++
          [Snake.Call.body_grow, Snake.Call.set_direction Direction.up, Snake.Call.update,
            Snake.Call.reset, Snake.Call.update]) = some (s', rs) ∧
      (∀ c ∈ s'.body, 0 ≤ c.x ∧ c.x < 40 ∧ 0 ≤ c.y ∧ c.y < 30) ∧
      ∃ r s2, s'.update = some (r, s2) ∧
        (if r = true then
          ∃ h t, s2.body = h :: t ∧ 0 ≤ h.x ∧ h.x < 40 ∧ 0 ≤ h.y ∧ h.y < 30
        else s2 = s') :=
  Snake.reachable_onGrid _

/-- C8: on a freshly constructed snake, any sequence of `set_direction` and
`update` calls runs to completion; its `update` calls return what the
spec-side reference says for a head on `(20,15)` heading left, and when `n` of
them returned `true` the body length is `min (n + 1) 4` and growPending is
`max (3 - n) 0`. -/
theorem Snake.length_without_food (calls : List Snake.Call)
    (hmoves : ∀ c ∈ calls, c.isMove = true) :
    ∃ s' rs, Snake.ctor.run calls = some (s', rs) ∧
      rs = Snake.specResults ⟨20, 15⟩ Direction.left calls ∧
      rs.length = calls.count Snake.Call.update ∧
      s'.body.length = min (rs.count true + 1) 4 ∧
      s'.growPending = max (3 - (rs.count true : Int)) 0 := by
  obtain ⟨s', rs, hrun, h1, h2⟩ := Snake.run_moves calls Snake.ctor (by simp [Snake.ctor])
    (by decide) (by decide) hmoves
  obtain ⟨s2, rs2, hrun2, hrs2⟩ := Snake.run_specResults calls Snake.ctor ⟨20, 15⟩ [] rfl
    (by decide) (by decide)
  rw [hrun] at hrun2
  simp only [Option.some.injEq, Prod.mk.injEq] at hrun2
  rw [← hrun2.2] at hrs2
  refine ⟨s', rs, hrun, hrs2, Snake.run_results_length calls _ _ _ hrun, ?_, h2⟩
  have hlen : Snake.ctor.body.length = 1 := rfl
  have hgp : Snake.ctor.growPending = 3 := rfl
  rw [hlen, hgp] at h1
  omega

/-- Five ticks with two turns and, separately, one to four ticks straight
ahead: every `update` returns `true`; the lengths after 1, 2, 3 and 4 ticks
are 2, 3, 4 and 4 with growPending 2, 1, 0 and 0; after the five ticks the
length is 4. -/
theorem Snake.length_without_food_witness :
    (∃ s' rs, Snake.ctor.run
        [Snake.Call.update, Snake.Call.set_direction Direction.up, Snake.Call.update,
          Snake.Call.update, Snake.Call.set_direction Direction.right, Snake.Call.update,
          Snake.Call.update] = some (s', rs) ∧
      rs = Snake.specResults ⟨20, 15⟩ Direction.left
        [Snake.Call.update, Snake.Call.set_direction Direction.up, Snake.Call.update,
          Snake.Call.update, Snake.Call.set_direction Direction.right, Snake.Call.update,
          Snake.Call.update] ∧
      rs.length = [Snake.Call.update, Snake.Call.set_direction Direction.up, Snake.Call.update,
          Snake.Call.update, Snake.Call.set_direction Direction.right, Snake.Call.update,
          Snake.Call.update].count Snake.Call.update ∧
      s'.body.length = min (rs.count true + 1) 4 ∧
      s'.growPending = max (3 - (rs.count true : Int)) 0) ∧
    Snake.ctor.run
        [Snake.Call.update, Snake.Call.set_direction Direction.up, Snake.Call.update,
          Snake.Call.update, Snake.Call.set_direction Direction.right, Snake.Call.update,
          Snake.Call.update] =
      some (Snake.mk [⟨21, 13⟩, ⟨20, 13⟩, ⟨19, 13⟩, ⟨19, 14⟩] Direction.right 0,
        [true, true, true, true, true]) ∧
    (Snake.ctor.run (List.replicate 1 Snake.Call.update)).map
        (fun p => (p.1.body.length, p.1.growPending, p.2)) = some (2, 2, [true]) ∧
    (Snake.ctor.run (List.replicate 2 Snake.Call.update)).map
        (fun p => (p.1.body.length, p.1.growPending, p.2)) = some (3, 1, [true, true]) ∧
    (Snake.ctor.run (List.replicate 3 Snake.Call.update)).map
        (fun p => (p.1.body.length, p.1.growPending, p.2)) =
      some (4, 0, [true, true, true]) ∧
    (Snake.ctor.run (List.replicate 4 Snake.Call.update)).map
        (fun p => (p.1.body.length, p.1.growPending, p.2)) =
      some (4, 0, [true, true, true, true]) :=
  ⟨Snake.length_without_food _ (by decide), by decide, by decide, by decide, by decide,
    by decide⟩

/-- C9: from the fresh state one `update` returns `true` and gives body
`[(19,15),(20,15)]` with growPending 2; three updates give body
`[(17,15),(18,15),(19,15),(20,15)]` with growPending 0; for every `n <= 20` the
first `n` updates all return `true` and leave the head at `(20 - n, 15)`; the
21st update returns `false`. -/
theorem Snake.straight_line :
    Snake.ctor = Snake.mk [⟨20, 15⟩] Direction.left 3 ∧
    Snake.ctor.update = some (true, Snake.mk [⟨19, 15⟩, ⟨20, 15⟩] Direction.left 2) ∧
    Snake.ctor.run (List.replicate 3 Snake.Call.update) =
      some (Snake.mk [⟨17, 15⟩, ⟨18, 15⟩, ⟨19, 15⟩, ⟨20, 15⟩] Direction.left 0,
        [true, true, true]) ∧
    (∀ n : Nat, n ≤ 20 →
      (Snake.ctor.run (List.replicate n Snake.Call.update)).map
          (fun p => (p.1.get_head, p.2)) =
        some (some ⟨20 - (n : Int), 15⟩, List.replicate n true)) ∧
    (Snake.ctor.run (List.replicate 21 Snake.Call.update)).map (fun p => p.2) =
      some (List.replicate 20 true ++ [false]) := by
  refine ⟨by decide, by decide, by decide, ?_, by decide⟩
  intro n hn
  interval_cases n <;> decide

/-- The last successful tick of the straight line: after 20 updates the head
is at `(0,15)`. -/
theorem Snake.straight_line_witness :
    (Snake.ctor.run (List.replicate 20 Snake.Call.update)).map
        (fun p => (p.1.get_head, p.2)) =
      some (some ⟨20 - ((20 : Nat) : Int), 15⟩, List.replicate 20 true) :=
  Snake.straight_line.2.2.2.1 20 (by decide)

/-! ## The controller tick -/

/-- C10: in one `Game::update` in which the snake's `update` returns `true`
with resulting snake `s1`: if the head of `s1` equals the food position, the
score grows by exactly 10, growPending is that of `s1` plus exactly 1 (body and
heading those of `s1`) and the food is the old food after exactly one
`respawn`, its position drawn from the random source; if the head differs from
the food position, the score and the food are unchanged and the snake is
`s1`. -/
theorem Game.update_food {G : Type} (R : RandomSource G) (g : Game G) (s1 : Snake)
    (hrange : g.snake.InRange) (hscore : isInt g.score) (hroom : g.score + 10 ≤ INT_MAX)
    (hmove : g.snake.update = some (true, s1)) :
    ∃ g', Game.update R g = some g' ∧
      (s1.get_head = some g.food.position →
        g'.score = g.score + 10 ∧
        g'.snake.growPending = s1.growPending + 1 ∧
        g'.snake.body = s1.body ∧
        g'.snake.direction = s1.direction ∧
        g'.food = g.food.respawn R ∧
        g'.food.position =
          ⟨(R.distX g.food.gen).1, (R.distY (R.distX g.food.gen).2).1⟩) ∧
      (s1.get_head ≠ some g.food.position →
        g'.score = g.score ∧ g'.snake = s1 ∧ g'.food = g.food) := by
  have hne : g.snake.body ≠ [] := by
    intro hnil
    simp [Snake.update, hnil] at hmove
  obtain ⟨front, rest, hbody⟩ := List.exists_cons_of_ne_nil hne
  obtain ⟨hgp, _⟩ := hrange
  unfold isInt INT_MIN INT_MAX at hgp hscore
  unfold INT_MAX at hroom
  have hs1 : s1.body = Snake.moveHead g.snake.direction front ::
        (if g.snake.growPending > 0 then g.snake.body else g.snake.body.dropLast) ∧
      s1.growPending =
        (if g.snake.growPending > 0 then wrapInt (g.snake.growPending - 1)
          else g.snake.growPending) := by
    rcases Snake.update_shape g.snake front rest hbody with ⟨_, hupd⟩ | ⟨_, hupd⟩
    · rw [hupd] at hmove
      simp at hmove
    · rw [hupd] at hmove
      simp only [Option.some.injEq, Prod.mk.injEq, true_and] at hmove
      rw [← hmove]
      exact ⟨rfl, rfl⟩
  obtain ⟨hs1body, hs1gp⟩ := hs1
  have hhead : s1.get_head = some (Snake.moveHead g.snake.direction front) := by
    simp [Snake.get_head, hs1body]
  have hgrow : wrapInt (s1.growPending + 1) = s1.growPending + 1 := by
    rw [hs1gp]
    unfold wrapInt
    split_ifs <;> omega
  have hsum : wrapInt (g.score + 10) = g.score + 10 := by
    unfold wrapInt
    omega
  by_cases heat : Snake.moveHead g.snake.direction front = g.food.position
  · have hcol := Snake.check_self_collision_cons s1.body_grow
      (Snake.moveHead g.snake.direction front) _ hs1body
    generalize Snake.collisionLoop (Snake.moveHead g.snake.direction front) s1.body_grow.body
      s1.body_grow.body.length 1 = r at hcol
    refine ⟨if r = true then
        Game.mk s1.body_grow (g.food.respawn R) (wrapInt (g.score + 10)) true
      else Game.mk s1.body_grow (g.food.respawn R) (wrapInt (g.score + 10)) g.gameOver,
      ?_, ?_, ?_⟩
    · simp only [Game.update, hmove, hhead, Food.get_position, heat, if_true, hcol,
        Bool.not_true, Bool.false_eq_true, if_false]
    · intro _
      cases r <;> simp [Snake.body_grow, hgrow, hsum, Food.respawn]
    · intro hdiff
      rw [hhead, heat] at hdiff
      exact absurd rfl hdiff
  · have hcol := Snake.check_self_collision_cons s1
      (Snake.moveHead g.snake.direction front) _ hs1body
    generalize Snake.collisionLoop (Snake.moveHead g.snake.direction front) s1.body
      s1.body.length 1 = r at hcol
    refine ⟨if r = true then Game.mk s1 g.food g.score true
      else Game.mk s1 g.food g.score g.gameOver, ?_, ?_, ?_⟩
    · simp only [Game.update, hmove, hhead, Food.get_position, heat, if_false, hcol,
        Bool.not_true, Bool.false_eq_true]
    · intro hsame
      rw [hhead] at hsame
      simp only [Option.some.injEq] at hsame
      exact absurd hsame heat
    · intro _
      cases r <;> simp

/-- Two ticks with the counter source: the food at `(19,15)` is eaten by the
fresh snake; the food at `(3,3)` is not. -/
theorem Game.update_food_witness :
    (∃ g', Game.update counterSource
        (Game.mk Snake.ctor (Food.mk 7 ⟨19, 15⟩) 20 false) = some g' ∧
      g'.score = 30 ∧ g'.snake.growPending = 3 ∧
      g'.snake.body = [⟨19, 15⟩, ⟨20, 15⟩] ∧
      g'.food.position = ⟨7, 8⟩ ∧ g'.food.gen = 9) ∧
    (∃ g', Game.update counterSource
        (Game.mk Snake.ctor (Food.mk 7 ⟨3, 3⟩) 20 false) = some g' ∧
      g'.score = 20 ∧ g'.snake.growPending = 2 ∧
      g'.food.position = ⟨3, 3⟩ ∧ g'.food.gen = 7) := by
  constructor
  · obtain ⟨g', hg, heat, _⟩ := Game.update_food counterSource
      (Game.mk Snake.ctor (Food.mk 7 ⟨19, 15⟩) 20 false)
      (Snake.mk [⟨19, 15⟩, ⟨20, 15⟩] Direction.left 2)
      (by decide) (by decide) (by decide) (by decide)
    obtain ⟨h1, h2, h3, _, h5, h6⟩ := heat (by decide)
    refine ⟨g', hg, ?_, ?_, ?_, ?_, ?_⟩
    · rw [h1]
      decide
    · rw [h2]
      decide
    · rw [h3]
    · rw [h6]
      decide
    · rw [h5]
      decide
  · obtain ⟨g', hg, _, hdiff⟩ := Game.update_food counterSource
      (Game.mk Snake.ctor (Food.mk 7 ⟨3, 3⟩) 20 false)
      (Snake.mk [⟨19, 15⟩, ⟨20, 15⟩] Direction.left 2)
      (by decide) (by decide) (by decide) (by decide)
    obtain ⟨h1, h2, h3⟩ := hdiff (by decide)
    refine ⟨g', hg, h1, ?_, ?_, ?_⟩
    · rw [h2]
    · rw [h3]
    · rw [h3]

/-! ## Lemmas on the controller loop -/

/-- On a cell of the grid the machine step and the unbounded step agree. -/
theorem Snake.moveHead_eq_step (d : Direction) (c : Vector2i) (hc : c.onGrid) :
    Snake.moveHead d c = d.step c := by
  obtain ⟨h1, h2, h3, h4⟩ := hc
  simp only [GRID_WIDTH, GRID_HEIGHT] at h2 h4
  cases d <;>
    simp only [Snake.moveHead, Direction.step, wrapInt, Vector2i.mk.injEq, true_and, and_true] <;>
    omega

/-- The collision loop started at index 1 tells whether the head occurs in
the rest of the body. -/
theorem Snake.collisionLoop_cons (h : Vector2i) (t : List Vector2i) :
    Snake.collisionLoop h (h :: t) (h :: t).length 1 = true ↔ h ∈ t := by
  rw [Snake.collisionLoop_iff h (h :: t) (h :: t).length 1 (by omega)]
  constructor
  · rintro ⟨j, hj, h1, hb⟩
    obtain ⟨k, rfl⟩ : ∃ k, j = k + 1 := ⟨j - 1, by omega⟩
    simp only [List.getElem_cons_succ] at hb
    rw [← hb]
    exact List.getElem_mem _
  · intro hmem
    obtain ⟨k, hk, hb⟩ := List.getElem_of_mem hmem
    refine ⟨k + 1, by simp only [List.length_cons]; omega, by omega, ?_⟩
    simpa using hb

/-- The collision check does not depend on growPending. -/
theorem Snake.check_self_collision_body_grow (s : Snake) :
    s.body_grow.check_self_collision = s.check_self_collision := rfl

/-- A list of distinct grid cells has at most 40 * 30 entries. -/
theorem Vector2i.length_le_of_nodup (l : List Vector2i) (hnd : l.Nodup)
    (hgrid : ∀ c ∈ l, c.onGrid) : l.length ≤ 1200 := by
  have hinj : ∀ a ∈ l, ∀ b ∈ l,
      a.x.toNat * 30 + a.y.toNat = b.x.toNat * 30 + b.y.toNat → a = b := by
    intro a ha b hb hab
    obtain ⟨a1, a2, a3, a4⟩ := hgrid a ha
    obtain ⟨b1, b2, b3, b4⟩ := hgrid b hb
    simp only [GRID_WIDTH, GRID_HEIGHT] at a2 a4 b2 b4
    obtain ⟨ax, ay⟩ := a
    obtain ⟨bx, bY⟩ := b
    simp only at a1 a2 a3 a4 b1 b2 b3 b4 hab
    simp only [Vector2i.mk.injEq]
    omega
  have hmap : (l.map fun c : Vector2i => c.x.toNat * 30 + c.y.toNat).Nodup :=
    List.Nodup.map_on hinj hnd
  have hsub : (l.map fun c : Vector2i => c.x.toNat * 30 + c.y.toNat).toFinset ⊆
      Finset.range 1200 := by
    intro n hn
    simp only [List.mem_toFinset, List.mem_map] at hn
    obtain ⟨c, hc, rfl⟩ := hn
    obtain ⟨c1, c2, c3, c4⟩ := hgrid c hc
    simp only [GRID_WIDTH, GRID_HEIGHT] at c2 c4
    simp only [Finset.mem_range]
    omega
  have hcard := Finset.card_le_card hsub
  rw [List.toFinset_card_of_nodup hmap, List.length_map, Finset.card_range] at hcard
  exact hcard

/-- The tick when the snake's `update` returns `false`. -/
theorem Game.update_of_blocked {G : Type} (R : RandomSource G) (g : Game G) (s1 : Snake)
    (hupd : g.snake.update = some (false, s1)) :
    Game.update R g = some { g with snake := s1, gameOver := true } := by
  simp [Game.update, hupd]

/-- The tick when the snake's `update` returns `true`, written out: `h` is the
new head and `t` the cells behind it. -/
theorem Game.update_of_moved {G : Type} (R : RandomSource G) (g : Game G) (s1 : Snake)
    (h : Vector2i) (t : List Vector2i)
    (hupd : g.snake.update = some (true, s1)) (hb : s1.body = h :: t) :
    Game.update R g = some
      (Game.mk (if h = g.food.position then s1.body_grow else s1)
        (if h = g.food.position then g.food.respawn R else g.food)
        (if h = g.food.position then wrapInt (g.score + 10) else g.score)
        (if Snake.collisionLoop h s1.body s1.body.length 1 = true then true
          else g.gameOver)) := by
  have hhead : s1.get_head = some h := by
    simp [Snake.get_head, hb]
  by_cases heat : h = g.food.position
  · have hcol := Snake.check_self_collision_cons s1.body_grow h t hb
    have hbg : s1.body_grow.body = s1.body := rfl
    rw [hbg] at hcol
    simp only [Game.update, hupd, hhead, Food.get_position, heat, if_true, hcol,
      Bool.not_true, Bool.false_eq_true, if_false]
    split_ifs <;> rfl
  · have hcol := Snake.check_self_collision_cons s1 h t hb
    simp only [Game.update, hupd, hhead, Food.get_position, heat, if_false, hcol,
      Bool.not_true, Bool.false_eq_true]
    split_ifs <;> rfl

/-- The snake after a successful `update`, from a body on the grid. -/
theorem Snake.update_true_shape (s s1 : Snake) (front : Vector2i) (rest : List Vector2i)
    (hbody : s.body = front :: rest) (hupd : s.update = some (true, s1)) :
    (Snake.moveHead s.direction front).onGrid ∧
    s1 = { body := Snake.moveHead s.direction front ::
            (if s.growPending > 0 then s.body else s.body.dropLast),
           direction := s.direction,
           growPending :=
            if s.growPending > 0 then wrapInt (s.growPending - 1) else s.growPending } := by
  rcases Snake.update_shape s front rest hbody with ⟨_, h⟩ | ⟨hon, h⟩
  · rw [h] at hupd
    simp at hupd
  · rw [h] at hupd
    simp only [Option.some.injEq, Prod.mk.injEq, true_and] at hupd
    exact ⟨hon, hupd.symm⟩

/-- The cells kept behind the new head start with the old head. -/
theorem Snake.retained_head (front n : Vector2i) (rest t : List Vector2i) (c : Prop)
    [Decidable c]
    (h : (if c then front :: rest else (front :: rest).dropLast) = n :: t) : n = front := by
  split_ifs at h
  · simp only [List.cons.injEq] at h
    exact h.1.symm
  · cases rest with
    | nil => simp at h
    | cons r rs =>
      simp only [List.dropLast_cons₂, List.cons.injEq] at h
      exact h.1.symm

/-- What a successful `update` does to a snake whose growPending lies in
`[0, 3]`: `ret` are the cells kept behind the new head. -/
theorem Snake.update_true_props (s s1 : Snake) (front : Vector2i) (rest : List Vector2i)
    (hbody : s.body = front :: rest) (hgp0 : 0 ≤ s.growPending) (hgp3 : s.growPending ≤ 3)
    (hupd : s.update = some (true, s1)) :
    ∃ ret, s1.body = Snake.moveHead s.direction front :: ret ∧
      s1.direction = s.direction ∧
      (Snake.moveHead s.direction front).onGrid ∧
      (∀ c ∈ ret, c ∈ s.body) ∧
      (s.body.Nodup → ret.Nodup) ∧
      (ret.length : Int) + 1 + s1.growPending = s.body.length + s.growPending ∧
      ret.length ≤ s.body.length ∧
      0 ≤ s1.growPending ∧ s1.growPending ≤ 2 ∧
      (∀ n t, ret = n :: t → n = front) := by
  obtain ⟨hon, hs1⟩ := Snake.update_true_shape s s1 front rest hbody hupd
  by_cases hpos : s.growPending > 0
  · simp only [hpos, if_true] at hs1
    have hw : wrapInt (s.growPending - 1) = s.growPending - 1 := by
      unfold wrapInt
      omega
    rw [hw] at hs1
    subst hs1
    refine ⟨s.body, rfl, rfl, hon, fun c hc => hc, fun h => h, ?_, le_refl _, ?_, ?_, ?_⟩
    · simp only
      omega
    · simp only
      omega
    · simp only
      omega
    · intro n t hnt
      rw [hbody] at hnt
      simp only [List.cons.injEq] at hnt
      exact hnt.1.symm
  · simp only [hpos, if_false] at hs1
    subst hs1
    have hlen : s.body.dropLast.length + 1 = s.body.length := by
      rw [hbody]
      simp
    refine ⟨s.body.dropLast, rfl, rfl, hon, fun c hc => List.mem_of_mem_dropLast hc,
      fun h => List.Nodup.sublist (List.dropLast_sublist _) h, ?_, by omega, ?_, ?_, ?_⟩
    · simp only
      omega
    · simp only
      omega
    · simp only
      omega
    · intro n t hnt
      rw [hbody] at hnt
      exact Snake.retained_head front n rest t False (by simpa using hnt)

/-- One running tick keeps the bookkeeping of a sound game and leaves the head
one step in the heading from the second body cell. -/
theorem Game.update_sound {G : Type} (R : RandomSource G) (g : Game G) (hs : g.Sound)
    (hrun : g.gameOver = false) :
    ∃ g', Game.update R g = some g' ∧ g'.Sound ∧ g'.Neck := by
  obtain ⟨hne, hgrid, hgp0, hgp3, hsum, hscore, hlen, hnd⟩ := hs
  have hnd1 := hnd hrun
  obtain ⟨front, rest, hbody⟩ := List.exists_cons_of_ne_nil hne
  have hfront : front.onGrid := hgrid front (by rw [hbody]; exact List.mem_cons_self _ _)
  have hcap := Vector2i.length_le_of_nodup _ hnd1 hgrid
  cases hupd : g.snake.update with
  | none =>
    rcases Snake.update_shape g.snake front rest hbody with ⟨_, h⟩ | ⟨_, h⟩ <;>
      rw [h] at hupd <;> cases hupd
  | some p =>
    obtain ⟨moved, s1⟩ := p
    cases moved with
    | false =>
      have hsame : s1 = g.snake := by
        rcases Snake.update_shape g.snake front rest hbody with ⟨_, h⟩ | ⟨_, h⟩
        · rw [h] at hupd
          simp only [Option.some.injEq, Prod.mk.injEq, true_and] at hupd
          exact hupd.symm
        · rw [h] at hupd
          simp at hupd
      subst hsame
      refine ⟨_, Game.update_of_blocked R g _ hupd, ?_, ?_⟩
      · exact ⟨hne, hgrid, hgp0, hgp3, hsum, hscore, hlen, by intro h; cases h⟩
      · intro h
        cases h
    | true =>
      obtain ⟨ret, hb, hdir, hon, hsub, hretnd, hacc, hretlen, hg0, hg2, hneck⟩ :=
        Snake.update_true_props g.snake s1 front rest hbody hgp0 hgp3 hupd
      have hstep := Snake.moveHead_eq_step g.snake.direction front hfront
      have hcol := Snake.collisionLoop_cons (Snake.moveHead g.snake.direction front) ret
      rw [← hb] at hcol
      have hlen1 : s1.body.length = ret.length + 1 := by
        rw [hb]
        simp
      have hbg : s1.body_grow.body = s1.body := rfl
      have hbd : s1.body_grow.direction = s1.direction := rfl
      have hbgp : s1.body_grow.growPending = s1.growPending + 1 := by
        simp only [Snake.body_grow, wrapInt]
        omega
      have hsc : wrapInt (g.score + 10) = g.score + 10 := by
        unfold wrapInt
        omega
      refine ⟨_, Game.update_of_moved R g s1 _ ret hupd hb, ?_, ?_⟩
      · by_cases heat : Snake.moveHead g.snake.direction front = g.food.position
        · simp only [heat, if_true]
          rw [← heat]
          refine ⟨?_, ?_, ?_, ?_, ?_, ?_, ?_, ?_⟩
          · rw [hbg, hb]
            exact List.cons_ne_nil _ _
          · intro c hc
            rw [hbg, hb] at hc
            rcases List.mem_cons.mp hc with rfl | hc'
            · exact hon
            · exact hgrid c (hsub c hc')
          · rw [hbgp]
            omega
          · rw [hbgp]
            omega
          · rw [hbg, hbgp, hlen1]
            push_cast
            omega
          · rw [hbg, hbgp, hlen1, hsc]
            push_cast
            omega
          · rw [hbg, hlen1]
            omega
          · intro hover
            rw [hbg, hb, List.nodup_cons]
            refine ⟨?_, hretnd hnd1⟩
            intro hmem
            have hloop := hcol.mpr hmem
            simp only [hloop, if_true] at hover
            cases hover
        · simp only [heat, if_false]
          refine ⟨?_, ?_, ?_, ?_, ?_, ?_, ?_, ?_⟩
          · rw [hb]
            exact List.cons_ne_nil _ _
          · intro c hc
            rw [hb] at hc
            rcases List.mem_cons.mp hc with rfl | hc'
            · exact hon
            · exact hgrid c (hsub c hc')
          · show 0 ≤ s1.growPending
            omega
          · show s1.growPending ≤ 3
            omega
          · show 4 ≤ (s1.body.length : Int) + s1.growPending
            rw [hlen1]
            push_cast
            omega
          · show g.score = 10 * ((s1.body.length : Int) + s1.growPending - 4)
            rw [hlen1]
            push_cast
            omega
          · show s1.body.length ≤ 1201
            rw [hlen1]
            omega
          · intro hover
            rw [hb, List.nodup_cons]
            refine ⟨?_, hretnd hnd1⟩
            intro hmem
            have hloop := hcol.mpr hmem
            simp only [hloop, if_true] at hover
            cases hover
      · intro _ h n t hbnt
        have hbody1 : s1.body = h :: n :: t := by
          by_cases heat : Snake.moveHead g.snake.direction front = g.food.position
          · simp only [heat, if_true] at hbnt
            exact hbnt
          · simp only [heat, if_false] at hbnt
            exact hbnt
        have hdir1 : (if Snake.moveHead g.snake.direction front = g.food.position
            then s1.body_grow else s1).direction = g.snake.direction := by
          split_ifs
          · rw [hbd, hdir]
          · exact hdir
        rw [hb] at hbody1
        simp only [List.cons.injEq] at hbody1
        obtain ⟨hh, hr⟩ := hbody1
        have hn := hneck n t hr
        simp only [hdir1]
        rw [← hh, hn, hstep]

/-- Two steps return to the start only when the second undoes the first. -/
theorem Direction.step_step_ne (d e : Direction) (n : Vector2i) (h : e ≠ d.opposite) :
    e.step (d.step n) ≠ n := by
  obtain ⟨x, y⟩ := n
  cases d <;> cases e <;>
    simp only [Direction.opposite, ne_eq, not_true_eq_false, reduceCtorEq,
      not_false_eq_true] at h <;>
    simp only [Direction.step, ne_eq, Vector2i.mk.injEq, not_and] <;>
    omega

/-- The guard of `set_direction`: the heading never becomes the opposite of
what it was. -/
theorem Snake.set_direction_ne_opposite (s : Snake) (d : Direction) :
    (s.set_direction d).direction ≠ s.direction.opposite := by
  obtain ⟨body, dir, gp⟩ := s
  cases dir <;> cases d <;> simp [Snake.set_direction, Direction.opposite]

/-- A direction request keeps the bookkeeping and cannot point the head at
the second body cell. -/
theorem Game.set_direction_sound {G : Type} (g : Game G) (d : Direction) (hs : g.Sound)
    (hneck : g.Neck) :
    ({ g with snake := g.snake.set_direction d } : Game G).Sound ∧
    ({ g with snake := g.snake.set_direction d } : Game G).NoReverse := by
  obtain ⟨hne, hgrid, hgp0, hgp3, hsum, hscore, hlen, hnd⟩ := hs
  have hb := Snake.set_direction_body g.snake d
  have hg := Snake.set_direction_growPending g.snake d
  constructor
  · refine ⟨?_, ?_, ?_, ?_, ?_, ?_, ?_, ?_⟩
    · show (g.snake.set_direction d).body ≠ []
      rw [hb]
      exact hne
    · show ∀ c ∈ (g.snake.set_direction d).body, c.onGrid
      rw [hb]
      exact hgrid
    · show 0 ≤ (g.snake.set_direction d).growPending
      rw [hg]
      exact hgp0
    · show (g.snake.set_direction d).growPending ≤ 3
      rw [hg]
      exact hgp3
    · show 4 ≤ ((g.snake.set_direction d).body.length : Int) +
        (g.snake.set_direction d).growPending
      rw [hb, hg]
      exact hsum
    · show g.score = 10 * (((g.snake.set_direction d).body.length : Int) +
        (g.snake.set_direction d).growPending - 4)
      rw [hb, hg]
      exact hscore
    · show (g.snake.set_direction d).body.length ≤ 1201
      rw [hb]
      exact hlen
    · show g.gameOver = false → (g.snake.set_direction d).body.Nodup
      rw [hb]
      exact hnd
  · intro hrun h n t hbody
    have hrun' : g.gameOver = false := hrun
    have hbody' : g.snake.body = h :: n :: t := by
      rw [← hb]
      exact hbody
    have hh := hneck hrun' h n t hbody'
    show (g.snake.set_direction d).direction.step h ≠ n
    rw [hh]
    exact Direction.step_step_ne _ _ n (Snake.set_direction_ne_opposite g.snake d)

/-- A game that satisfies `Neck` satisfies `NoReverse`. -/
theorem Game.noReverse_of_neck {G : Type} (g : Game G) (hneck : g.Neck) : g.NoReverse := by
  intro hrun h n t hbody
  rw [hneck hrun h n t hbody]
  apply Direction.step_step_ne
  cases g.snake.direction <;> simp [Direction.opposite]

/-- The game rebuilt by the reset command is sound. -/
theorem Game.reset_sound {G : Type} (s : Snake) (f : Food G) :
    (Game.mk s.reset f 0 false).Sound ∧ (Game.mk s.reset f 0 false).Neck := by
  constructor
  · refine ⟨by simp [Snake.reset], ?_, ?_, ?_, ?_, ?_, ?_, fun _ => ?_⟩
    rotate_left
    · show (0 : Int) ≤ 3
      decide
    · show (3 : Int) ≤ 3
      decide
    · show (4 : Int) ≤ ((1 : Nat) : Int) + 3
      decide
    · show (0 : Int) = 10 * (((1 : Nat) : Int) + 3 - 4)
      decide
    · show 1 ≤ 1201
      decide
    · show ([⟨20, 15⟩] : List Vector2i).Nodup
      decide
    intro c hc
    simp only [Snake.reset, List.nil_append, List.mem_singleton] at hc
    subst hc
    decide
  · intro _ h n t hb
    simp [Snake.reset] at hb

/-- The event loop keeps the bookkeeping; after it the heading does not point
from the head at the second body cell. -/
theorem Game.handleLoop_sound {G : Type} (R : RandomSource G) (events : List Event) :
    ∀ g : Game G, g.Sound → g.Neck →
      (Game.handleLoop R events g).2.2.Sound ∧ (Game.handleLoop R events g).2.2.NoReverse := by
  induction events with
  | nil =>
    intro g hs hn
    exact ⟨hs, Game.noReverse_of_neck g hn⟩
  | cons e rest ih =>
    intro g hs hn
    cases e with
    | Closed => exact ⟨hs, Game.noReverse_of_neck g hn⟩
    | other => exact ih g hs hn
    | KeyPressed code =>
      simp only [Game.handleLoop]
      split_ifs with h1 h2
      · exact ih _ (Game.reset_sound g.snake (g.food.respawn R)).1
          (Game.reset_sound g.snake (g.food.respawn R)).2
      · cases code with
        | Up => exact Game.set_direction_sound g Direction.up hs hn
        | Down => exact Game.set_direction_sound g Direction.down hs hn
        | Left => exact Game.set_direction_sound g Direction.left hs hn
        | Right => exact Game.set_direction_sound g Direction.right hs hn
        | R => exact ih g hs hn
        | other => exact ih g hs hn
      · exact ih g hs hn

/-- `handle_events` keeps the bookkeeping of a sound game. -/
theorem Game.handle_events_sound {G : Type} (R : RandomSource G) (w : Window) (g : Game G)
    (hs : g.Sound) (hn : g.Neck) :
    (Game.handle_events R w g).2.Sound ∧ (Game.handle_events R w g).2.NoReverse := by
  unfold Game.handle_events
  split_ifs
  · exact Game.handleLoop_sound R w.events g hs hn
  · exact ⟨hs, Game.noReverse_of_neck g hn⟩

/-- One loop iteration runs to completion on a sound game and ends in one. -/
theorem Game.frame_sound {G : Type} (R : RandomSource G) (arrivals : List Event) (w : Window)
    (g : Game G) (hs : g.Sound) (hn : g.Neck) :
    ∃ w' g', Game.frame R arrivals w g = some (w', g') ∧ g'.Sound ∧ g'.Neck := by
  obtain ⟨hs1, _⟩ := Game.handle_events_sound R { w with events := w.events ++ arrivals } g hs hn
  unfold Game.frame
  cases hover : (Game.handle_events R { w with events := w.events ++ arrivals } g).2.gameOver with
  | false =>
    obtain ⟨g2, hupd, hs2, hn2⟩ := Game.update_sound R _ hs1 hover
    refine ⟨(Game.handle_events R { w with events := w.events ++ arrivals } g).1, g2, ?_,
      hs2, hn2⟩
    simp only [hover, Bool.not_false, if_true, hupd]
  | true =>
    refine ⟨(Game.handle_events R { w with events := w.events ++ arrivals } g).1,
      (Game.handle_events R { w with events := w.events ++ arrivals } g).2, ?_, hs1, ?_⟩
    · simp only [hover, Bool.not_true, Bool.false_eq_true, if_false]
    · intro h
      rw [hover] at h
      cases h

/-- Every sequence of loop iterations runs to completion on a sound game and
ends in one. -/
theorem Game.run_sound {G : Type} (R : RandomSource G) (frames : List (List Event)) :
    ∀ (w : Window) (g : Game G), g.Sound → g.Neck →
      ∃ w' g', Game.run R frames w g = some (w', g') ∧ g'.Sound ∧ g'.Neck := by
  induction frames with
  | nil =>
    intro w g hs hn
    exact ⟨w, g, rfl, hs, hn⟩
  | cons arrivals later ih =>
    intro w g hs hn
    by_cases hopen : w.isOpen = true
    · obtain ⟨w1, g1, hframe, hs1, hn1⟩ := Game.frame_sound R arrivals w g hs hn
      obtain ⟨w2, g2, hrun, hs2, hn2⟩ := ih w1 g1 hs1 hn1
      refine ⟨w2, g2, ?_, hs2, hn2⟩
      simp only [Game.run, hopen, if_true, hframe]
      exact hrun
    · refine ⟨w, g, ?_, hs, hn⟩
      simp only [Game.run, hopen, if_false]
      rfl

/-- The game built by the constructor is sound. -/
theorem Game.ctor_sound {G : Type} (R : RandomSource G) (seed : G) :
    (Game.ctor R seed).Sound ∧ (Game.ctor R seed).Neck :=
  Game.reset_sound Snake.ctor (Food.ctor R seed)

/-- In a game that is over, events other than an `R` key press change
nothing. -/
theorem Game.handleLoop_latched {G : Type} (R : RandomSource G) (events : List Event)
    (g : Game G) (hover : g.gameOver = true)
    (hnoR : ∀ e ∈ events, e ≠ Event.KeyPressed Keyboard.R) :
    (Game.handleLoop R events g).2.2 = g := by
  induction events with
  | nil => rfl
  | cons e rest ih =>
    have hrest : ∀ e ∈ rest, e ≠ Event.KeyPressed Keyboard.R :=
      fun e he => hnoR e (List.mem_cons_of_mem _ he)
    cases e with
    | Closed => rfl
    | other => exact ih hrest
    | KeyPressed code =>
      have hcode : code ≠ Keyboard.R := by
        intro hc
        exact hnoR (Event.KeyPressed code) (List.mem_cons_self _ _) (by rw [hc])
      simp only [Game.handleLoop, hover, Bool.true_and, beq_iff_eq, hcode, if_false,
        Bool.not_true, Bool.false_eq_true]
      exact ih hrest

/-- What the event loop can do to the game: from a running game it applies at
most one `set_direction`; from any game the body is kept or rebuilt by a
reset. -/
theorem Game.handleLoop_trace {G : Type} (R : RandomSource G) (events : List Event) :
    ∀ g : Game G,
      (g.gameOver = false →
        (Game.handleLoop R events g).2.2 = g ∨
        ∃ d, (Game.handleLoop R events g).2.2 =
          { g with snake := g.snake.set_direction d }) ∧
      ((Game.handleLoop R events g).2.2.snake.body = g.snake.body ∨
        (Game.handleLoop R events g).2.2.snake.body = [⟨20, 15⟩]) := by
  induction events with
  | nil =>
    intro g
    exact ⟨fun _ => Or.inl rfl, Or.inl rfl⟩
  | cons e rest ih =>
    intro g
    cases e with
    | Closed => exact ⟨fun _ => Or.inl rfl, Or.inl rfl⟩
    | other => exact ih g
    | KeyPressed code =>
      simp only [Game.handleLoop]
      split_ifs with h1 h2
      · constructor
        · intro hrun
          rw [hrun] at h1
          simp at h1
        · right
          rcases (ih (Game.mk g.snake.reset (g.food.respawn R) 0 false)).2 with h | h
          · rw [h]
            rfl
          · exact h
      · cases code with
        | Up =>
          exact ⟨fun _ => Or.inr ⟨Direction.up, rfl⟩,
            Or.inl (Snake.set_direction_body g.snake Direction.up)⟩
        | Down =>
          exact ⟨fun _ => Or.inr ⟨Direction.down, rfl⟩,
            Or.inl (Snake.set_direction_body g.snake Direction.down)⟩
        | Left =>
          exact ⟨fun _ => Or.inr ⟨Direction.left, rfl⟩,
            Or.inl (Snake.set_direction_body g.snake Direction.left)⟩
        | Right =>
          exact ⟨fun _ => Or.inr ⟨Direction.right, rfl⟩,
            Or.inl (Snake.set_direction_body g.snake Direction.right)⟩
        | R => exact ih g
        | other => exact ih g
      · exact ih g

/-- Events that are neither `Closed` nor a direction key leave a running game
as it is and are consumed. -/
theorem Game.handleLoop_skip {G : Type} (R : RandomSource G) (pre tail : List Event)
    (g : Game G) (hrun : g.gameOver = false)
    (hpre : ∀ e ∈ pre, e ≠ Event.Closed ∧ ∀ c, e = Event.KeyPressed c → c.direction? = none) :
    Game.handleLoop R (pre ++ tail) g = Game.handleLoop R tail g := by
  induction pre with
  | nil => rfl
  | cons e rest ih =>
    have hrest : ∀ e ∈ rest,
        e ≠ Event.Closed ∧ ∀ c, e = Event.KeyPressed c → c.direction? = none :=
      fun e he => hpre e (List.mem_cons_of_mem _ he)
    obtain ⟨hnc, hkey⟩ := hpre e (List.mem_cons_self _ _)
    cases e with
    | Closed => exact absurd rfl hnc
    | other => exact ih hrest
    | KeyPressed code =>
      have hdir := hkey code rfl
      simp only [List.cons_append, Game.handleLoop, hrun, Bool.false_and, Bool.false_eq_true,
        if_false, Bool.not_false, if_true]
      cases code <;> simp [Keyboard.direction?] at hdir <;> exact ih hrest

/-! ## Properties of the controller -/

/-- C11: for a running game, one `Game::update` returns, and afterwards the
game-over flag is `true` if and only if the snake's `update` returned `false`
or `check_self_collision` on the moved snake is `true`; when the snake's
`update` returned `false`, the snake, the food and the score are unchanged. -/
theorem Game.update_gameOver {G : Type} (R : RandomSource G) (g : Game G) (front : Vector2i)
    (rest : List Vector2i) (hrun : g.gameOver = false) (hbody : g.snake.body = front :: rest) :
    ∃ moved s1 g', g.snake.update = some (moved, s1) ∧ Game.update R g = some g' ∧
      (g'.gameOver = true ↔ (moved = false ∨ s1.check_self_collision = some true)) ∧
      (moved = false → g'.snake = g.snake ∧ g'.food = g.food ∧ g'.score = g.score) := by
  rcases Snake.update_shape g.snake front rest hbody with ⟨_, hupd⟩ | ⟨_, hupd⟩
  · refine ⟨false, g.snake, _, hupd, Game.update_of_blocked R g _ hupd, ?_, ?_⟩
    · simp
    · intro _
      exact ⟨rfl, rfl, rfl⟩
  · refine ⟨true, _, _, hupd, Game.update_of_moved R g _ _ _ hupd rfl, ?_, ?_⟩
    · rw [Snake.check_self_collision_cons _ _ _ rfl, hrun]
      simp
    · intro h
      cases h

/-- Three running ticks: into the left wall, into the snake's own body, and
a free move. -/
theorem Game.update_gameOver_witness :
    (∃ moved s1 g', (Snake.mk [⟨0, 15⟩, ⟨1, 15⟩] Direction.left 0).update = some (moved, s1) ∧
      Game.update counterSource
        (Game.mk (Snake.mk [⟨0, 15⟩, ⟨1, 15⟩] Direction.left 0) (Food.mk 7 ⟨3, 3⟩) 0 false) =
        some g' ∧
      (g'.gameOver = true ↔ (moved = false ∨ s1.check_self_collision = some true)) ∧
      (moved = false → g'.snake = Snake.mk [⟨0, 15⟩, ⟨1, 15⟩] Direction.left 0 ∧
        g'.food = Food.mk 7 ⟨3, 3⟩ ∧ g'.score = 0)) ∧
    (Game.update counterSource
        (Game.mk (Snake.mk [⟨0, 15⟩, ⟨1, 15⟩] Direction.left 0) (Food.mk 7 ⟨3, 3⟩) 0 false)).map
      (fun g' => g'.gameOver) = some true ∧
    (Game.update counterSource
        (Game.mk (Snake.mk [⟨5, 5⟩, ⟨5, 6⟩, ⟨6, 6⟩, ⟨6, 5⟩, ⟨7, 5⟩] Direction.right 0)
          (Food.mk 7 ⟨3, 3⟩) 10 false)).map
      (fun g' => g'.gameOver) = some true ∧
    (Game.update counterSource (Game.mk Snake.ctor (Food.mk 7 ⟨3, 3⟩) 0 false)).map
      (fun g' => g'.gameOver) = some false :=
  ⟨Game.update_gameOver counterSource
      (Game.mk (Snake.mk [⟨0, 15⟩, ⟨1, 15⟩] Direction.left 0) (Food.mk 7 ⟨3, 3⟩) 0 false)
      ⟨0, 15⟩ [⟨1, 15⟩] rfl rfl,
    by decide, by decide, by decide⟩

/-- C12: when the game-over flag is set, one loop iteration whose pending
events hold no `R` key press leaves snake, food, score and flag unchanged; an
iteration that ends with the flag cleared had an `R` key press pending. -/
theorem Game.gameOver_latched {G : Type} (R : RandomSource G) (w : Window) (g : Game G)
    (arrivals : List Event) (hover : g.gameOver = true) :
    ((∀ e ∈ w.events ++ arrivals, e ≠ Event.KeyPressed Keyboard.R) →
      ∃ w', Game.frame R arrivals w g = some (w', g)) ∧
    (∀ w' g', Game.frame R arrivals w g = some (w', g') → g'.gameOver = false →
      Event.KeyPressed Keyboard.R ∈ w.events ++ arrivals) := by
  have hkeep : (∀ e ∈ w.events ++ arrivals, e ≠ Event.KeyPressed Keyboard.R) →
      ∃ w', Game.frame R arrivals w g = some (w', g) := by
    intro hnoR
    have hg : (Game.handle_events R { w with events := w.events ++ arrivals } g).2 = g := by
      unfold Game.handle_events
      split_ifs
      · exact Game.handleLoop_latched R _ g hover hnoR
      · rfl
    refine ⟨(Game.handle_events R { w with events := w.events ++ arrivals } g).1, ?_⟩
    unfold Game.frame
    simp only [hg, hover, Bool.not_true, Bool.false_eq_true, if_false]
    exact congrArg some (Prod.ext rfl hg)
  refine ⟨hkeep, ?_⟩
  intro w' g' hframe hclear
  by_contra hno
  obtain ⟨w2, hsame⟩ := hkeep (fun e he heq => hno (heq ▸ he))
  rw [hsame] at hframe
  simp only [Option.some.injEq, Prod.mk.injEq] at hframe
  rw [← hframe.2, hover] at hclear
  cases hclear

/-- A finished game with direction keys, another key and an untyped event
pending: the iteration changes nothing. -/
theorem Game.gameOver_latched_witness :
    ∃ w', Game.frame counterSource [Event.KeyPressed Keyboard.Up, Event.other]
        (Window.mk true [Event.KeyPressed Keyboard.other, Event.KeyPressed Keyboard.Left])
        (Game.mk (Snake.mk [⟨0, 15⟩, ⟨1, 15⟩] Direction.left 0) (Food.mk 7 ⟨3, 3⟩) 20 true) =
      some (w', Game.mk (Snake.mk [⟨0, 15⟩, ⟨1, 15⟩] Direction.left 0) (Food.mk 7 ⟨3, 3⟩) 20
        true) :=
  (Game.gameOver_latched counterSource
    (Window.mk true [Event.KeyPressed Keyboard.other, Event.KeyPressed Keyboard.Left])
    (Game.mk (Snake.mk [⟨0, 15⟩, ⟨1, 15⟩] Direction.left 0) (Food.mk 7 ⟨3, 3⟩) 20 true)
    [Event.KeyPressed Keyboard.Up, Event.other] rfl).1 (by decide)

/-- C13: when the game-over flag is set, handling an `R` key press sets the
snake to body `[(20,15)]`, heading left, growPending 3, respawns the food
once, sets the score to 0 and clears the flag; while the game is running an
`R` key press changes nothing.  The events queued behind the key press are
handled next, from that game. -/
theorem Game.reset_command {G : Type} (R : RandomSource G) (g : Game G) (later : List Event) :
    (g.gameOver = true →
      Game.handle_events R (Window.mk true (Event.KeyPressed Keyboard.R :: later)) g =
        Game.handle_events R (Window.mk true later)
          (Game.mk (Snake.mk [⟨20, 15⟩] Direction.left 3) (g.food.respawn R) 0 false) ∧
      (Game.handle_events R (Window.mk true [Event.KeyPressed Keyboard.R]) g).2 =
        Game.mk (Snake.mk [⟨20, 15⟩] Direction.left 3) (g.food.respawn R) 0 false) ∧
    (g.gameOver = false →
      Game.handle_events R (Window.mk true (Event.KeyPressed Keyboard.R :: later)) g =
        Game.handle_events R (Window.mk true later) g ∧
      (Game.handle_events R (Window.mk true [Event.KeyPressed Keyboard.R]) g).2 = g) := by
  constructor
  · intro hover
    constructor
    · simp only [Game.handle_events, if_true, Game.handleLoop, hover, Bool.true_and,
        beq_self_eq_true]
      rfl
    · simp only [Game.handle_events, if_true, Game.handleLoop, hover, Bool.true_and,
        beq_self_eq_true]
      rfl
  · intro hrun
    constructor
    · simp only [Game.handle_events, if_true, Game.handleLoop, hrun, Bool.false_and,
        Bool.false_eq_true, if_false, Bool.not_false]
    · simp only [Game.handle_events, if_true, Game.handleLoop, hrun, Bool.false_and,
        Bool.false_eq_true, if_false, Bool.not_false]

/-- The `R` key on a finished game and on a running game. -/
theorem Game.reset_command_witness :
    (Game.handle_events counterSource (Window.mk true [Event.KeyPressed Keyboard.R])
        (Game.mk (Snake.mk [⟨0, 15⟩, ⟨1, 15⟩] Direction.up 1) (Food.mk 7 ⟨3, 3⟩) 20 true)).2 =
      Game.mk (Snake.mk [⟨20, 15⟩] Direction.left 3)
        (Food.respawn counterSource (Food.mk 7 ⟨3, 3⟩)) 0 false ∧
    (Game.handle_events counterSource (Window.mk true [Event.KeyPressed Keyboard.R])
        (Game.mk (Snake.mk [⟨0, 15⟩, ⟨1, 15⟩] Direction.up 1) (Food.mk 7 ⟨3, 3⟩) 20 false)).2 =
      Game.mk (Snake.mk [⟨0, 15⟩, ⟨1, 15⟩] Direction.up 1) (Food.mk 7 ⟨3, 3⟩) 20 false :=
  ⟨((Game.reset_command counterSource
      (Game.mk (Snake.mk [⟨0, 15⟩, ⟨1, 15⟩] Direction.up 1) (Food.mk 7 ⟨3, 3⟩) 20 true)
      []).1 rfl).2,
   ((Game.reset_command counterSource
      (Game.mk (Snake.mk [⟨0, 15⟩, ⟨1, 15⟩] Direction.up 1) (Food.mk 7 ⟨3, 3⟩) 20 false)
      []).2 rfl).2⟩

/-- The fresh game whose first food lies at `(14,15)` eats it on its sixth
tick: the score rises to 10 and growPending to 1, but the body seen by that
tick's collision check has 4 cells, as before the tick, and the old tail cell
`(18,15)` is gone. -/
theorem Game.eating_tick_counterexample :
    Game.run counterSource (List.replicate 5 []) Window.ctor (Game.ctor counterSource 14) =
      some (Window.ctor,
        Game.mk (Snake.mk [⟨15, 15⟩, ⟨16, 15⟩, ⟨17, 15⟩, ⟨18, 15⟩] Direction.left 0)
          (Food.mk 16 ⟨14, 15⟩) 0 false) ∧
    Game.update counterSource
        (Game.mk (Snake.mk [⟨15, 15⟩, ⟨16, 15⟩, ⟨17, 15⟩, ⟨18, 15⟩] Direction.left 0)
          (Food.mk 16 ⟨14, 15⟩) 0 false) =
      some (Game.mk (Snake.mk [⟨14, 15⟩, ⟨15, 15⟩, ⟨16, 15⟩, ⟨17, 15⟩] Direction.left 1)
        (Food.mk 18 ⟨16, 17⟩) 10 false) ∧
    ¬ ([(⟨14, 15⟩ : Vector2i), ⟨15, 15⟩, ⟨16, 15⟩, ⟨17, 15⟩].length =
        [(⟨15, 15⟩ : Vector2i), ⟨16, 15⟩, ⟨17, 15⟩, ⟨18, 15⟩].length + 1) ∧
    (⟨18, 15⟩ : Vector2i) ∉ [(⟨14, 15⟩ : Vector2i), ⟨15, 15⟩, ⟨16, 15⟩, ⟨17, 15⟩] := by
  refine ⟨by decide, by decide, by decide, by decide⟩

/-- C14 (amended): on a tick in which the food is eaten (growPending a
non-negative `int` before the tick), eating only raises growPending by one.  The body seen by that tick's collision check is the body
left by the snake's `update`: with growPending = 0 before the tick the tail
cell is dropped and the length is that before the tick; it is one longer only
when growPending was already positive.  The cell owed for the food is kept by
the next successful `update`, which makes the body one cell longer. -/
theorem Game.eating_tick_deferred {G : Type} (R : RandomSource G) (g : Game G) (s1 : Snake)
    (hgp0 : 0 ≤ g.snake.growPending) (hgp : g.snake.growPending ≤ INT_MAX)
    (hmove : g.snake.update = some (true, s1))
    (heat : s1.get_head = some g.food.position) :
    ∃ g', Game.update R g = some g' ∧
      g'.snake.body = s1.body ∧
      g'.snake.check_self_collision = s1.check_self_collision ∧
      g'.snake.growPending = s1.growPending + 1 ∧
      (g.snake.growPending = 0 →
        g'.snake.body.length = g.snake.body.length ∧
        g'.snake.body.tail = g.snake.body.dropLast) ∧
      (g.snake.growPending > 0 →
        g'.snake.body.length = g.snake.body.length + 1 ∧
        g'.snake.body.tail = g.snake.body) ∧
      (∀ s2, g'.snake.update = some (true, s2) →
        s2.body.length = g'.snake.body.length + 1) := by
  have hne : g.snake.body ≠ [] := by
    intro hnil
    simp [Snake.update, hnil] at hmove
  obtain ⟨front, rest, hbody⟩ := List.exists_cons_of_ne_nil hne
  obtain ⟨_, hs1⟩ := Snake.update_true_shape g.snake s1 front rest hbody hmove
  unfold INT_MAX at hgp
  have hs1gp : 0 ≤ s1.growPending ∧ s1.growPending < 2147483647 := by
    rw [hs1]
    simp only
    split_ifs
    · simp only [wrapInt]
      omega
    · omega
  have hb : s1.body = Snake.moveHead g.snake.direction front ::
      (if g.snake.growPending > 0 then g.snake.body else g.snake.body.dropLast) := by
    rw [hs1]
  have hhead : Snake.moveHead g.snake.direction front = g.food.position := by
    rw [Snake.get_head, hb] at heat
    simpa using heat
  have hbgp : s1.body_grow.growPending = s1.growPending + 1 := by
    simp only [Snake.body_grow, wrapInt]
    omega
  refine ⟨_, Game.update_of_moved R g s1 _ _ hmove hb, ?_, ?_, ?_, ?_, ?_, ?_⟩
  · simp only [hhead, if_true]
    rfl
  · simp only [hhead, if_true]
    rfl
  · simp only [hhead, if_true]
    exact hbgp
  · intro hzero
    simp only [hhead, if_true]
    have hbody1 : s1.body_grow.body = g.food.position :: g.snake.body.dropLast := by
      show s1.body = _
      rw [hb, hhead, hzero]
      simp
    rw [hbody1, hbody]
    simp
  · intro hpos
    simp only [hhead, if_true]
    have hbody1 : s1.body_grow.body = g.food.position :: g.snake.body := by
      show s1.body = _
      rw [hb, hhead]
      simp [hpos]
    rw [hbody1]
    simp
  · intro s2 hnext
    simp only [hhead, if_true] at hnext ⊢
    have hbody1 : s1.body_grow.body = Snake.moveHead g.snake.direction front ::
        (if g.snake.growPending > 0 then g.snake.body else g.snake.body.dropLast) := hb
    obtain ⟨_, hs2⟩ := Snake.update_true_shape s1.body_grow s2 _ _ hbody1 hnext
    have hpos : s1.body_grow.growPending > 0 := by
      rw [hbgp]
      omega
    rw [hs2]
    simp only [hpos, if_true, List.length_cons]

/-- The sixth tick of the fresh game whose first food lies at `(14,15)`: the
length stays 4 on the eating tick and is 5 after the next tick. -/
theorem Game.eating_tick_deferred_witness :
    ∃ g', Game.update counterSource
        (Game.mk (Snake.mk [⟨15, 15⟩, ⟨16, 15⟩, ⟨17, 15⟩, ⟨18, 15⟩] Direction.left 0)
          (Food.mk 16 ⟨14, 15⟩) 0 false) = some g' ∧
      g'.snake.body = [⟨14, 15⟩, ⟨15, 15⟩, ⟨16, 15⟩, ⟨17, 15⟩] ∧
      g'.snake.growPending = 1 ∧
      g'.snake.body.length = 4 ∧
      (∀ s2, g'.snake.update = some (true, s2) → s2.body.length = g'.snake.body.length + 1) := by
  obtain ⟨g', hg, hb, _, hgp, hzero, _, hnext⟩ := Game.eating_tick_deferred counterSource
    (Game.mk (Snake.mk [⟨15, 15⟩, ⟨16, 15⟩, ⟨17, 15⟩, ⟨18, 15⟩] Direction.left 0)
      (Food.mk 16 ⟨14, 15⟩) 0 false)
    (Snake.mk [⟨14, 15⟩, ⟨15, 15⟩, ⟨16, 15⟩, ⟨17, 15⟩] Direction.left 0)
    (by decide) (by decide) (by decide) (by decide)
  refine ⟨g', hg, hb, ?_, ?_, hnext⟩
  · rw [hgp]
    decide
  · rw [(hzero rfl).1]
    rfl

/-- A fresh snake that turns up, right and down after its first tick moves
its head onto the cell `(20,15)` that was its tail before the move; the tail
is dropped by that move and `check_self_collision` returns `false`. -/
theorem Snake.tail_chase_counterexample :
    Snake.ctor.run
        [Snake.Call.update, Snake.Call.set_direction Direction.up, Snake.Call.update,
          Snake.Call.set_direction Direction.right, Snake.Call.update,
          Snake.Call.set_direction Direction.down] =
      some (Snake.mk [⟨20, 14⟩, ⟨19, 14⟩, ⟨19, 15⟩, ⟨20, 15⟩] Direction.down 0,
        [true, true, true]) ∧
    (Snake.mk [⟨20, 14⟩, ⟨19, 14⟩, ⟨19, 15⟩, ⟨20, 15⟩] Direction.down 0).update =
      some (true, Snake.mk [⟨20, 15⟩, ⟨20, 14⟩, ⟨19, 14⟩, ⟨19, 15⟩] Direction.down 0) ∧
    (⟨20, 15⟩ : Vector2i) ∈ [(⟨20, 14⟩ : Vector2i), ⟨19, 14⟩, ⟨19, 15⟩, ⟨20, 15⟩] ∧
    (Snake.mk [⟨20, 15⟩, ⟨20, 14⟩, ⟨19, 14⟩, ⟨19, 15⟩] Direction.down
      0).check_self_collision = some false := by
  refine ⟨by decide, by decide, by decide, by decide⟩

/-- C15 (amended): after a successful `update`, `check_self_collision` returns
`true` exactly when the new head equals a cell of the pre-move body that the
move keeps: any cell when growPending > 0, any cell except the last (tail)
position when growPending is not positive. -/
theorem Snake.collision_after_update (s s1 : Snake) (front : Vector2i)
    (rest : List Vector2i) (hbody : s.body = front :: rest)
    (hupd : s.update = some (true, s1)) :
    ∃ h t, s1.body = h :: t ∧
      (s.growPending > 0 →
        s1.check_self_collision = some (decide (h ∈ s.body))) ∧
      (s.growPending ≤ 0 →
        s1.check_self_collision = some (decide (h ∈ s.body.dropLast))) := by
  obtain ⟨_, hs1⟩ := Snake.update_true_shape s s1 front rest hbody hupd
  have hb : s1.body = Snake.moveHead s.direction front ::
      (if s.growPending > 0 then s.body else s.body.dropLast) := by
    rw [hs1]
  have hcol := Snake.collisionLoop_cons (Snake.moveHead s.direction front)
    (if s.growPending > 0 then s.body else s.body.dropLast)
  rw [← hb] at hcol
  have hcheck := Snake.check_self_collision_cons s1 _ _ hb
  refine ⟨_, _, hb, ?_, ?_⟩
  · intro hpos
    rw [hcheck]
    simp only [hpos, if_true] at hcol
    congr 1
    rw [Bool.eq_iff_iff, hcol]
    simp
  · intro hle
    have hneg : ¬ s.growPending > 0 := by omega
    rw [hcheck]
    simp only [hneg, if_false] at hcol
    congr 1
    rw [Bool.eq_iff_iff, hcol]
    simp

/-- A snake of five cells that turns down into its own fourth cell: the cell
is kept by the move and the check returns `true`. -/
theorem Snake.collision_after_update_witness :
    ∃ h t, (Snake.mk [⟨6, 6⟩, ⟨6, 5⟩, ⟨5, 5⟩, ⟨5, 6⟩, ⟨6, 6⟩] Direction.down 0).body = h :: t ∧
      (Snake.mk [⟨6, 6⟩, ⟨6, 5⟩, ⟨5, 5⟩, ⟨5, 6⟩, ⟨6, 6⟩] Direction.down
        0).check_self_collision =
        some (decide
          (h ∈ (Snake.mk [⟨6, 5⟩, ⟨5, 5⟩, ⟨5, 6⟩, ⟨6, 6⟩, ⟨7, 6⟩] Direction.down
            0).body.dropLast)) ∧
      (Snake.mk [⟨6, 6⟩, ⟨6, 5⟩, ⟨5, 5⟩, ⟨5, 6⟩, ⟨6, 6⟩] Direction.down
        0).check_self_collision = some true := by
  obtain ⟨h, t, hb, _, hle⟩ := Snake.collision_after_update
    (Snake.mk [⟨6, 5⟩, ⟨5, 5⟩, ⟨5, 6⟩, ⟨6, 6⟩, ⟨7, 6⟩] Direction.down 0)
    (Snake.mk [⟨6, 6⟩, ⟨6, 5⟩, ⟨5, 5⟩, ⟨5, 6⟩, ⟨6, 6⟩] Direction.down 0)
    ⟨6, 5⟩ [⟨5, 5⟩, ⟨5, 6⟩, ⟨6, 6⟩, ⟨7, 6⟩] rfl (by decide)
  exact ⟨h, t, hb, hle (by decide), by decide⟩

/-- After its first tick the fresh snake has body `[(19,15),(20,15)]`, heading
left.  Two requests before the next tick, up and then right, are both
accepted, and the next `update` succeeds with its new head on `(20,15)`, the
second body segment. -/
theorem Snake.double_turn_counterexample :
    Snake.ctor.update = some (true, Snake.mk [⟨19, 15⟩, ⟨20, 15⟩] Direction.left 2) ∧
    (Snake.mk [⟨19, 15⟩, ⟨20, 15⟩] Direction.left 2).body[1]? = some ⟨20, 15⟩ ∧
    ([Direction.up, Direction.right].foldl Snake.set_direction
        (Snake.mk [⟨19, 15⟩, ⟨20, 15⟩] Direction.left 2)).update =
      some (true, Snake.mk [⟨20, 15⟩, ⟨19, 15⟩, ⟨20, 15⟩] Direction.right 1) ∧
    (Snake.mk [⟨20, 15⟩, ⟨19, 15⟩, ⟨20, 15⟩] Direction.right 1).get_head = some ⟨20, 15⟩ := by
  refine ⟨by decide, by decide, by decide, by decide⟩

/-- C16 (amended): for a snake state with at least two body cells reached by a
successful `update` (from a head with `int` coordinates), and for at most one
`set_direction` call made before the next `update`, if that next `update`
succeeds then its new head is not the cell that was the second body segment
before it. -/
theorem Snake.no_reversal_one_request (s0 s s2 : Snake) (front : Vector2i)
    (rest : List Vector2i) (ds : List Direction)
    (hbody0 : s0.body = front :: rest) (hx : isInt front.x) (hy : isInt front.y)
    (hupd0 : s0.update = some (true, s)) (hlen : 2 ≤ s.body.length)
    (hds : ds.length ≤ 1)
    (hupd : (ds.foldl Snake.set_direction s).update = some (true, s2)) :
    ∃ h n, s2.get_head = some h ∧ s.body[1]? = some n ∧ h ≠ n := by
  obtain ⟨hon, hs⟩ := Snake.update_true_shape s0 s front rest hbody0 hupd0
  have hstep0 := Snake.moveHead_eq_step_of_onGrid s0.direction front hx hy hon
  have hsbody : ∃ t, s.body = s0.direction.step front :: front :: t := by
    rw [hs, ← hstep0]
    simp only
    cases hret : (if s0.growPending > 0 then s0.body else s0.body.dropLast) with
    | nil =>
      rw [hs] at hlen
      simp only [hret, List.length_cons, List.length_nil] at hlen
      omega
    | cons n t =>
      rw [hbody0] at hret
      have hn := Snake.retained_head front n rest t _ hret
      rw [hn]
      exact ⟨t, rfl⟩
  obtain ⟨t, hsb⟩ := hsbody
  have hsdir : s.direction = s0.direction := by
    rw [hs]
  have hturn : (ds.foldl Snake.set_direction s).body = s.body ∧
      (ds.foldl Snake.set_direction s).direction ≠ s0.direction.opposite := by
    cases ds with
    | nil =>
      refine ⟨rfl, ?_⟩
      simp only [List.foldl_nil, hsdir]
      cases s0.direction <;> simp [Direction.opposite]
    | cons d more =>
      cases more with
      | nil =>
        simp only [List.foldl_cons, List.foldl_nil]
        refine ⟨Snake.set_direction_body s d, ?_⟩
        rw [← hsdir]
        exact Snake.set_direction_ne_opposite s d
      | cons d2 more2 =>
        simp only [List.length_cons] at hds
        omega
  obtain ⟨hbturn, hdturn⟩ := hturn
  have hb1 : (ds.foldl Snake.set_direction s).body =
      s0.direction.step front :: (front :: t) := by
    rw [hbturn, hsb]
  obtain ⟨hon2, hs2⟩ := Snake.update_true_shape _ s2 _ _ hb1 hupd
  have hon1 : (s0.direction.step front).onGrid := by
    rw [← hstep0]
    exact hon
  have hstep2 := Snake.moveHead_eq_step (ds.foldl Snake.set_direction s).direction
    (s0.direction.step front) hon1
  refine ⟨(ds.foldl Snake.set_direction s).direction.step (s0.direction.step front), front,
    ?_, ?_, ?_⟩
  · rw [hs2, Snake.get_head, hstep2]
    rfl
  · rw [hsb]
    simp
  · exact Direction.step_step_ne _ _ front hdturn

/-- The fresh snake after its first tick, one request (up) and the next tick:
the new head `(19,14)` is not the second segment `(20,15)`. -/
theorem Snake.no_reversal_one_request_witness :
    ∃ h n, (Snake.mk [⟨19, 14⟩, ⟨19, 15⟩, ⟨20, 15⟩] Direction.up 1).get_head = some h ∧
      (Snake.mk [⟨19, 15⟩, ⟨20, 15⟩] Direction.left 2).body[1]? = some n ∧ h ≠ n :=
  Snake.no_reversal_one_request Snake.ctor (Snake.mk [⟨19, 15⟩, ⟨20, 15⟩] Direction.left 2)
    (Snake.mk [⟨19, 14⟩, ⟨19, 15⟩, ⟨20, 15⟩] Direction.up 1) ⟨20, 15⟩ [] [Direction.up]
    rfl (by decide) (by decide) (by decide) (by decide) (by decide) (by decide)

/-- A fresh running game with two direction keys pending, Up and then Right:
`handle_events` applies only Up and leaves Right in the queue, so the tick
moves the head up to `(20,14)`; applying both requests in order would leave
the heading right. -/
theorem Game.latest_request_counterexample :
    (Game.handle_events counterSource
        (Window.mk true [Event.KeyPressed Keyboard.Up, Event.KeyPressed Keyboard.Right])
        (Game.ctor counterSource 0)).2.snake.direction = Direction.up ∧
    (Game.handle_events counterSource
        (Window.mk true [Event.KeyPressed Keyboard.Up, Event.KeyPressed Keyboard.Right])
        (Game.ctor counterSource 0)).1.events = [Event.KeyPressed Keyboard.Right] ∧
    ([Direction.up, Direction.right].foldl Snake.set_direction
        (Game.ctor counterSource 0).snake).direction = Direction.right ∧
    (Game.frame counterSource []
        (Window.mk true [Event.KeyPressed Keyboard.Up, Event.KeyPressed Keyboard.Right])
        (Game.ctor counterSource 0)).map (fun p => (p.2.snake.direction, p.2.snake.get_head)) =
      some (Direction.up, some ⟨20, 14⟩) := by
  refine ⟨by decide, by decide, by decide, by decide⟩

/-- C17 (amended): when direction-key events are pending before a tick while
the game is running and the window is open, and no `Closed` event is pending
ahead of the first of them, `handle_events` applies only that first direction
key through `set_direction` and returns, leaving every event behind it in the
queue, not applied; the tick's `update` runs with the heading left by that
first request. -/
theorem Game.first_request_wins {G : Type} (R : RandomSource G) (w : Window) (g : Game G)
    (arrivals pre post : List Event) (k : Keyboard) (d : Direction)
    (hopen : w.isOpen = true) (hrun : g.gameOver = false)
    (hq : w.events ++ arrivals = pre ++ Event.KeyPressed k :: post)
    (hpre : ∀ e ∈ pre, e ≠ Event.Closed ∧ ∀ c, e = Event.KeyPressed c → c.direction? = none)
    (hk : k.direction? = some d) :
    Game.handle_events R { w with events := w.events ++ arrivals } g =
      (Window.mk true post, { g with snake := g.snake.set_direction d }) ∧
    Game.frame R arrivals w g =
      (Game.update R { g with snake := g.snake.set_direction d }).map
        (fun g2 => (Window.mk true post, g2)) := by
  have hloop : Game.handleLoop R (pre ++ Event.KeyPressed k :: post) g =
      (true, post, { g with snake := g.snake.set_direction d }) := by
    rw [Game.handleLoop_skip R pre _ g hrun hpre]
    simp only [Game.handleLoop, hrun, Bool.false_and, Bool.false_eq_true, if_false,
      Bool.not_false, if_true]
    cases k <;> simp only [Keyboard.direction?, Option.some.injEq, reduceCtorEq] at hk <;>
      rw [← hk]
  have hev : Game.handle_events R { w with events := w.events ++ arrivals } g =
      (Window.mk true post, { g with snake := g.snake.set_direction d }) := by
    simp only [Game.handle_events, hopen, if_true, hq, hloop]
  refine ⟨hev, ?_⟩
  have hflag : (!({ g with snake := g.snake.set_direction d } : Game G).gameOver) = true := by
    show (!g.gameOver) = true
    rw [hrun]
    rfl
  unfold Game.frame
  simp only [hev]
  rw [if_pos hflag]
  cases Game.update R { g with snake := g.snake.set_direction d } <;> rfl

/-- A running game with an unrelated key, then Up, then Right pending: only Up
is applied in this iteration and Right stays queued. -/
theorem Game.first_request_wins_witness :
    Game.handle_events counterSource
        { Window.mk true [Event.KeyPressed Keyboard.other] with
          events := [Event.KeyPressed Keyboard.other] ++
            [Event.KeyPressed Keyboard.Up, Event.KeyPressed Keyboard.Right] }
        (Game.ctor counterSource 0) =
      (Window.mk true [Event.KeyPressed Keyboard.Right],
        { Game.ctor counterSource 0 with
          snake := (Game.ctor counterSource 0).snake.set_direction Direction.up }) :=
  (Game.first_request_wins counterSource (Window.mk true [Event.KeyPressed Keyboard.other])
    (Game.ctor counterSource 0) [Event.KeyPressed Keyboard.Up, Event.KeyPressed Keyboard.Right]
    [Event.KeyPressed Keyboard.other] [Event.KeyPressed Keyboard.Right] Keyboard.Up Direction.up
    rfl rfl rfl
    (by
      intro e he
      rw [List.mem_singleton] at he
      subst he
      exact ⟨by decide, fun c hc => by cases hc; rfl⟩)
    rfl).1

/-- What the event loop can do to a game that is over: nothing, or a reset
after which the game runs with the body rebuilt as `[(20,15)]`. -/
theorem Game.handleLoop_over {G : Type} (R : RandomSource G) (events : List Event)
    (g : Game G) (hover : g.gameOver = true) :
    (Game.handleLoop R events g).2.2 = g ∨
    ((Game.handleLoop R events g).2.2.gameOver = false ∧
      (Game.handleLoop R events g).2.2.snake.body = [⟨20, 15⟩]) := by
  induction events with
  | nil => exact Or.inl rfl
  | cons e rest ih =>
    cases e with
    | Closed => exact Or.inl rfl
    | other => exact ih
    | KeyPressed code =>
      simp only [Game.handleLoop]
      split_ifs with h1 h2
      · right
        rcases (Game.handleLoop_trace R rest
          (Game.mk g.snake.reset (g.food.respawn R) 0 false)).1 rfl with h | ⟨d, h⟩
        · rw [h]
          exact ⟨rfl, rfl⟩
        · rw [h]
          exact ⟨rfl, Snake.set_direction_body _ d⟩
      · rw [hover] at h2
        simp at h2
      · exact ih

/-- A fresh game whose first food lies at `(15,16)` is steered to eat it and
then into its own body: after 18 iterations the game is over with the second
body cell on `(19,15)`.  In the next iteration the `R` key resets the snake
and the same iteration's `update` succeeds, moving the new head onto
`(19,15)`, the cell that was the second body segment before the iteration. -/
theorem Game.reset_frame_counterexample :
    Game.run counterSource
        [[Event.KeyPressed Keyboard.Down], [Event.KeyPressed Keyboard.Left], [], [], [], [],
          [Event.KeyPressed Keyboard.Up], [], [], [Event.KeyPressed Keyboard.Right], [], [], [],
          [Event.KeyPressed Keyboard.Down], [Event.KeyPressed Keyboard.Left],
          [Event.KeyPressed Keyboard.Down], [Event.KeyPressed Keyboard.Right],
          [Event.KeyPressed Keyboard.Up]]
        Window.ctor (Game.ctor counterSource 15) =
      some (Window.ctor,
        Game.mk (Snake.mk [⟨19, 14⟩, ⟨19, 15⟩, ⟨18, 15⟩, ⟨18, 14⟩, ⟨19, 14⟩] Direction.up 0)
          (Food.mk 19 ⟨17, 18⟩) 10 true) ∧
    (Snake.mk [⟨19, 14⟩, ⟨19, 15⟩, ⟨18, 15⟩, ⟨18, 14⟩, ⟨19, 14⟩] Direction.up 0).body[1]? =
      some ⟨19, 15⟩ ∧
    (Game.handle_events counterSource (Window.mk true [Event.KeyPressed Keyboard.R])
        (Game.mk (Snake.mk [⟨19, 14⟩, ⟨19, 15⟩, ⟨18, 15⟩, ⟨18, 14⟩, ⟨19, 14⟩] Direction.up 0)
          (Food.mk 19 ⟨17, 18⟩) 10 true)).2.snake.update =
      some (true, Snake.mk [⟨19, 15⟩, ⟨20, 15⟩] Direction.left 2) ∧
    Game.frame counterSource [Event.KeyPressed Keyboard.R] Window.ctor
        (Game.mk (Snake.mk [⟨19, 14⟩, ⟨19, 15⟩, ⟨18, 15⟩, ⟨18, 14⟩, ⟨19, 14⟩] Direction.up 0)
          (Food.mk 19 ⟨17, 18⟩) 10 true) =
      some (Window.ctor,
        Game.mk (Snake.mk [⟨19, 15⟩, ⟨20, 15⟩] Direction.left 2) (Food.mk 21 ⟨19, 20⟩) 0
          false) ∧
    (Snake.mk [⟨19, 15⟩, ⟨20, 15⟩] Direction.left 2).get_head = some ⟨19, 15⟩ := by
  refine ⟨by decide, by decide, by decide, by decide, by decide⟩

/-- C18 (amended): take any game state reached from a fresh game by loop
iterations and any events arriving for the next iteration.  `handle_events`
applies at most one `set_direction` to a running game, and it keeps the body
or a reset rebuilds it as `[(20,15)]`.  If the iteration starts with the game
running, it completes, and when the snake's `update` succeeds and the body had
at least two cells, the new head differs from the cell that was the second
body segment before the iteration.  In any iteration, an `update` that
succeeds on a body of at least two cells runs on the body from before the
iteration and its new head differs from that body's second cell.  If the
iteration starts with the game over, either nothing changes and `update` does
not run, or `update` runs on the snake rebuilt as the single cell
`(20,15)`. -/
theorem Game.frame_no_reversal {G : Type} (R : RandomSource G) (seed : G)
    (frames : List (List Event)) (arrivals : List Event) :
    ∃ w g, Game.run R frames Window.ctor (Game.ctor R seed) = some (w, g) ∧
      ∃ w1 g1, Game.handle_events R { w with events := w.events ++ arrivals } g = (w1, g1) ∧
        (g.gameOver = false →
          g1 = g ∨ ∃ d, g1 = { g with snake := g.snake.set_direction d }) ∧
        (g1.snake.body = g.snake.body ∨ g1.snake.body = [⟨20, 15⟩]) ∧
        (g.gameOver = false →
          ∃ moved s2 g2, g1.snake.update = some (moved, s2) ∧
            Game.frame R arrivals w g = some (w1, g2) ∧
            (moved = true → ∀ h n t, g.snake.body = h :: n :: t →
              ∃ h2, s2.get_head = some h2 ∧ h2 ≠ n)) ∧
        (g1.gameOver = false →
          ∃ moved s2 g2, g1.snake.update = some (moved, s2) ∧
            Game.frame R arrivals w g = some (w1, g2) ∧
            (moved = true → ∀ h n t, g1.snake.body = h :: n :: t →
              g.snake.body = h :: n :: t ∧ ∃ h2, s2.get_head = some h2 ∧ h2 ≠ n)) ∧
        (g.gameOver = true →
          (g1 = g ∧ Game.frame R arrivals w g = some (w1, g)) ∨
          (g1.gameOver = false ∧ g1.snake.body = [⟨20, 15⟩] ∧
            ∃ moved s2 g2, g1.snake.update = some (moved, s2) ∧
              Game.frame R arrivals w g = some (w1, g2))) := by
  obtain ⟨w, g, hrun, hs, hn⟩ := Game.run_sound R frames Window.ctor (Game.ctor R seed)
    (Game.ctor_sound R seed).1 (Game.ctor_sound R seed).2
  obtain ⟨hs1, hnr⟩ := Game.handle_events_sound R { w with events := w.events ++ arrivals } g
    hs hn
  have htrace : (g.gameOver = false →
        (Game.handle_events R { w with events := w.events ++ arrivals } g).2 = g ∨
        ∃ d, (Game.handle_events R { w with events := w.events ++ arrivals } g).2 =
          { g with snake := g.snake.set_direction d }) ∧
      ((Game.handle_events R { w with events := w.events ++ arrivals } g).2.snake.body =
          g.snake.body ∨
        (Game.handle_events R { w with events := w.events ++ arrivals } g).2.snake.body =
          [⟨20, 15⟩]) := by
    unfold Game.handle_events
    split_ifs
    · exact Game.handleLoop_trace R _ g
    · exact ⟨fun _ => Or.inl rfl, Or.inl rfl⟩
  have hlate : (Game.handle_events R { w with events := w.events ++ arrivals } g).2.gameOver =
        false →
      ∃ moved s2 g2,
        (Game.handle_events R { w with events := w.events ++ arrivals } g).2.snake.update =
          some (moved, s2) ∧
        Game.frame R arrivals w g =
          some ((Game.handle_events R { w with events := w.events ++ arrivals } g).1, g2) ∧
        (moved = true → ∀ h n t,
          (Game.handle_events R { w with events := w.events ++ arrivals } g).2.snake.body =
            h :: n :: t →
          g.snake.body = h :: n :: t ∧ ∃ h2, s2.get_head = some h2 ∧ h2 ≠ n) := by
    intro hrun1
    obtain ⟨g2, hupd, _, _⟩ := Game.update_sound R _ hs1 hrun1
    obtain ⟨hne, hgrid, _⟩ := hs1
    obtain ⟨front, rest, hbody⟩ := List.exists_cons_of_ne_nil hne
    have hframe : Game.frame R arrivals w g =
        some ((Game.handle_events R { w with events := w.events ++ arrivals } g).1, g2) := by
      unfold Game.frame
      simp only [hrun1, Bool.not_false, if_true, hupd]
    rcases Snake.update_shape _ front rest hbody with ⟨_, hsu⟩ | ⟨_, hsu⟩
    · refine ⟨false, _, g2, hsu, hframe, ?_⟩
      intro h
      cases h
    · refine ⟨true, _, g2, hsu, hframe, ?_⟩
      intro _ h n t hb
      have hkeep : g.snake.body = h :: n :: t := by
        rcases htrace.2 with hsame | hfresh
        · rw [← hsame]
          exact hb
        · rw [hb] at hfresh
          simp at hfresh
      refine ⟨hkeep, ?_⟩
      have hfront : front = h := by
        rw [hb] at hbody
        simp only [List.cons.injEq] at hbody
        exact hbody.1.symm
      have hh : h.onGrid := hgrid h (by rw [hb]; exact List.mem_cons_self _ _)
      refine ⟨_, rfl, ?_⟩
      rw [hfront, Snake.moveHead_eq_step _ h hh]
      exact hnr hrun1 h n t hb
  have hover : g.gameOver = true →
      (Game.handle_events R { w with events := w.events ++ arrivals } g).2 = g ∨
      ((Game.handle_events R { w with events := w.events ++ arrivals } g).2.gameOver = false ∧
        (Game.handle_events R { w with events := w.events ++ arrivals } g).2.snake.body =
          [⟨20, 15⟩]) := by
    intro hov
    unfold Game.handle_events
    split_ifs
    · exact Game.handleLoop_over R _ g hov
    · exact Or.inl rfl
  refine ⟨w, g, hrun, (Game.handle_events R { w with events := w.events ++ arrivals } g).1,
    (Game.handle_events R { w with events := w.events ++ arrivals } g).2, rfl, htrace.1,
    htrace.2, ?_, hlate, ?_⟩
  rotate_left
  · intro hov
    rcases hover hov with hsame | ⟨hrun1, hfresh⟩
    · left
      refine ⟨hsame, ?_⟩
      unfold Game.frame
      simp only [hsame, hov, Bool.not_true, Bool.false_eq_true, if_false]
      exact congrArg some (Prod.ext rfl hsame)
    · right
      obtain ⟨moved, s2, g2, hupd, hframe, _⟩ := hlate hrun1
      exact ⟨hrun1, hfresh, moved, s2, g2, hupd, hframe⟩
  intro hrun0
  have hsame : (Game.handle_events R { w with events := w.events ++ arrivals } g).2.gameOver =
        false ∧
      (Game.handle_events R { w with events := w.events ++ arrivals } g).2.snake.body =
        g.snake.body := by
    rcases htrace.1 hrun0 with h | ⟨d, h⟩
    · rw [h]
      exact ⟨hrun0, rfl⟩
    · rw [h]
      exact ⟨hrun0, Snake.set_direction_body g.snake d⟩
  obtain ⟨moved, s2, g2, hupd, hframe, hmoved⟩ := hlate hsame.1
  refine ⟨moved, s2, g2, hupd, hframe, ?_⟩
  intro hm h n t hb
  exact (hmoved hm h n t (by rw [hsame.2]; exact hb)).2

/-- One tick, then an iteration with Up, Right and Down pending: only Up is
applied, Right and Down stay queued, and the head moves to `(19,14)`, not onto
the second cell `(20,15)`. -/
theorem Game.frame_no_reversal_witness :
    (Game.run counterSource
        [[], [Event.KeyPressed Keyboard.Up, Event.KeyPressed Keyboard.Right,
          Event.KeyPressed Keyboard.Down]]
        Window.ctor (Game.ctor counterSource 0)).map
        (fun p => (p.1.events, p.2.snake.body, p.2.snake.direction)) =
      some ([Event.KeyPressed Keyboard.Right, Event.KeyPressed Keyboard.Down],
        [⟨19, 14⟩, ⟨19, 15⟩, ⟨20, 15⟩], Direction.up) ∧
    ∃ w g, Game.run counterSource [[]] Window.ctor (Game.ctor counterSource 0) = some (w, g) ∧
      ∃ w1 g1, Game.handle_events counterSource
          { w with events := w.events ++
            [Event.KeyPressed Keyboard.Up, Event.KeyPressed Keyboard.Right,
              Event.KeyPressed Keyboard.Down] } g = (w1, g1) ∧
        (g.gameOver = false →
          g1 = g ∨ ∃ d, g1 = { g with snake := g.snake.set_direction d }) ∧
        (g1.snake.body = g.snake.body ∨ g1.snake.body = [⟨20, 15⟩]) ∧
        (g.gameOver = false →
          ∃ moved s2 g2, g1.snake.update = some (moved, s2) ∧
            Game.frame counterSource
              [Event.KeyPressed Keyboard.Up, Event.KeyPressed Keyboard.Right,
                Event.KeyPressed Keyboard.Down] w g = some (w1, g2) ∧
            (moved = true → ∀ h n t, g.snake.body = h :: n :: t →
              ∃ h2, s2.get_head = some h2 ∧ h2 ≠ n)) ∧
        (g1.gameOver = false →
          ∃ moved s2 g2, g1.snake.update = some (moved, s2) ∧
            Game.frame counterSource
              [Event.KeyPressed Keyboard.Up, Event.KeyPressed Keyboard.Right,
                Event.KeyPressed Keyboard.Down] w g = some (w1, g2) ∧
            (moved = true → ∀ h n t, g1.snake.body = h :: n :: t →
              g.snake.body = h :: n :: t ∧ ∃ h2, s2.get_head = some h2 ∧ h2 ≠ n)) ∧
        (g.gameOver = true →
          (g1 = g ∧ Game.frame counterSource
              [Event.KeyPressed Keyboard.Up, Event.KeyPressed Keyboard.Right,
                Event.KeyPressed Keyboard.Down] w g = some (w1, g)) ∨
          (g1.gameOver = false ∧ g1.snake.body = [⟨20, 15⟩] ∧
            ∃ moved s2 g2, g1.snake.update = some (moved, s2) ∧
              Game.frame counterSource
                [Event.KeyPressed Keyboard.Up, Event.KeyPressed Keyboard.Right,
                  Event.KeyPressed Keyboard.Down] w g = some (w1, g2))) :=
  ⟨by decide,
   Game.frame_no_reversal counterSource 0 [[]]
    [Event.KeyPressed Keyboard.Up, Event.KeyPressed Keyboard.Right,
      Event.KeyPressed Keyboard.Down]⟩

/-- C19: in every game state reached from a fresh game by loop iterations, the
score is a non-negative multiple of 10, body length + growPending equals
4 + score / 10, and growPending is not negative. -/
theorem Game.score_accounting {G : Type} (R : RandomSource G) (seed : G)
    (frames : List (List Event)) :
    ∃ w g, Game.run R frames Window.ctor (Game.ctor R seed) = some (w, g) ∧
      0 ≤ g.score ∧ g.score % 10 = 0 ∧
      (g.snake.body.length : Int) + g.snake.growPending = 4 + g.score / 10 ∧
      0 ≤ g.snake.growPending := by
  obtain ⟨w, g, hrun, hs, _⟩ := Game.run_sound R frames Window.ctor (Game.ctor R seed)
    (Game.ctor_sound R seed).1 (Game.ctor_sound R seed).2
  obtain ⟨_, _, hgp0, _, hsum, hscore, _, _⟩ := hs
  refine ⟨w, g, hrun, ?_, ?_, ?_, hgp0⟩ <;> omega

/-- Seven ticks of the fresh game whose first food lies at `(14,15)`: the
food is eaten on the sixth; in the end the score is 10 and the body has 5
cells. -/
theorem Game.score_accounting_witness :
    (∃ w g, Game.run counterSource (List.replicate 7 []) Window.ctor
        (Game.ctor counterSource 14) = some (w, g) ∧
      0 ≤ g.score ∧ g.score % 10 = 0 ∧
      (g.snake.body.length : Int) + g.snake.growPending = 4 + g.score / 10 ∧
      0 ≤ g.snake.growPending) ∧
    (Game.run counterSource (List.replicate 7 []) Window.ctor
        (Game.ctor counterSource 14)).map
      (fun p => (p.2.score, p.2.snake.body.length, p.2.snake.growPending)) =
      some (10, 5, 0) :=
  ⟨Game.score_accounting counterSource 14 (List.replicate 7 []), by decide⟩

/-- C20: every sequence of `set_direction`, `update`, `body_grow` and `reset`
calls on a freshly constructed snake runs to completion, and in the state it
reaches the body has at least one cell: `get_head` and `update` find a front
cell, and the deque that `update` pops from holds at least two cells. -/
theorem Snake.body_never_empty (calls : List Snake.Call) :
    ∃ s' rs, Snake.ctor.run calls = some (s', rs) ∧
      1 ≤ s'.body.length ∧
      (∃ front, s'.get_head = some front ∧
        2 ≤ (Snake.moveHead s'.direction front :: s'.body).length) ∧
      ∃ r s2, s'.update = some (r, s2) ∧ 1 ≤ s2.body.length := by
  obtain ⟨s', rs, hrun, hne, _⟩ := Snake.run_onGrid calls Snake.ctor
    (by simp [Snake.ctor])
    (by
      intro c hc
      simp only [Snake.ctor, List.nil_append, List.mem_singleton] at hc
      subst hc
      decide)
  obtain ⟨front, rest, hbody⟩ := List.exists_cons_of_ne_nil hne
  refine ⟨s', rs, hrun, ?_, ⟨front, ?_, ?_⟩, ?_⟩
  · rw [hbody]
    simp
  · simp [Snake.get_head, hbody]
  · rw [hbody]
    simp
  · rcases Snake.update_shape s' front rest hbody with ⟨_, hupd⟩ | ⟨_, hupd⟩
    · refine ⟨false, s', hupd, ?_⟩
      rw [hbody]
      simp
    · refine ⟨true, _, hupd, ?_⟩
      simp

/-- A run with resets, growth and a walk into the wall: the body stays
non-empty. -/
theorem Snake.body_never_empty_witness :
    ∃ s' rs, Snake.ctor.run
        ([Snake.Call.reset, Snake.Call.body_grow, Snake.Call.set_direction Direction.down] ++
          List.replicate 16 Snake.Call.update ++ [Snake.Call.reset, Snake.Call.update]) =
        some (s', rs) ∧
      1 ≤ s'.body.length ∧
      (∃ front, s'.get_head = some front ∧
        2 ≤ (Snake.moveHead s'.direction front :: s'.body).length) ∧
      ∃ r s2, s'.update = some (r, s2) ∧ 1 ≤ s2.body.length :=
  Snake.body_never_empty _
